import Mathlib

/- Verification of the procedural growth and spatial simulation engine of the
plot-monitoring dashboard.  The engine appears twice in the repository: a
schematic low-poly renderer (class BambooClump, with its growth curve, stalk
placement by rejection sampling, harvest scheduling and carbon derivation) and
a geo-referenced terrain renderer (function addBambooPlants, driven by the
seeded pseudo-random generator seededRandom), plus the income derivation of the
dashboard card component (FloatingDataCards).

Numbers of the source are modelled as exact rationals where the source only
uses field arithmetic (the card component) and as real numbers where the source
uses transcendental functions (exp, sin, cos, sqrt).  The JavaScript intrinsics
are modelled as: Math.floor = Int.floor, Math.ceil = Int.ceil, Math.round and
toFixed = round (nearest, half up), Math.random = the next value of an ambient
stream of draws, threaded by an explicit index. -/

namespace TerraTwin

/-- Ambient Math.random modelled as a stream of draws; index n is the value of
the n-th call in program order. -/
def RandStream : Type := ℕ → ℝ

/-- A stream whose draws all lie in [0,1), as Math.random guarantees. -/
def StreamRange (s : RandStream) : Prop := ∀ n, 0 ≤ s n ∧ s n < 1

namespace Cards

/-- Quantities computed by the FloatingDataCards component for a plot and a
selected year. -/
structure Econ where
  yearsGrown : ℚ
  canHarvest : Bool
  progress : ℚ
  currentCarbonRate : ℚ
  annualCarbon : ℚ
  carbonIncome : ℚ
  totalClumps : ℤ
  polesPerClump : ℚ
  totalPoles : ℚ
  harvestablePolesPerYear : ℚ
  harvestIncome : ℚ
  totalIncome : ℚ

def plantingYear : ℤ := 2026

def harvestStartYear : ℤ := 5

def carbonRatePerHa : ℚ := 87.5

def carbonPricePerTon : ℚ := 30

def clumpsPerHa : ℚ := 150

def harvestablePolesPerClumpPerYear : ℚ := 20

def polePrice : ℚ := 10

/-- The economics derivation of FloatingDataCards: a pure function of the plot
area (hectares) and the selected year, transcribed line by line from the
component body. -/
def economics (areaHectares : ℚ) (year : ℤ) : Econ :=
  let yearsGrown : ℚ := max 0 ((year : ℚ) - (plantingYear : ℚ))
  let canHarvest : Bool := decide ((harvestStartYear : ℚ) ≤ yearsGrown)
  let progress : ℚ := min 1 (yearsGrown / 6)
  let currentCarbonRate : ℚ := carbonRatePerHa * progress
  let annualCarbon : ℚ := areaHectares * currentCarbonRate
  let carbonIncome : ℚ := annualCarbon * carbonPricePerTon
  let totalClumps : ℤ := round (areaHectares * clumpsPerHa)
  let polesPerClump : ℚ := min 100 (5 + progress * 95)
  let totalPoles : ℚ := (totalClumps : ℚ) * polesPerClump
  let harvestablePolesPerYear : ℚ :=
    if canHarvest then (totalClumps : ℚ) * harvestablePolesPerClumpPerYear else 0
  let harvestIncome : ℚ := harvestablePolesPerYear * polePrice
  let totalIncome : ℚ := carbonIncome + harvestIncome
  ⟨yearsGrown, canHarvest, progress, currentCarbonRate, annualCarbon, carbonIncome,
   totalClumps, polesPerClump, totalPoles, harvestablePolesPerYear, harvestIncome,
   totalIncome⟩

end Cards

namespace Schematic

/-- Field maxPoles of BambooClump; set once in the class body and never
mutated. -/
def maxPoles : ℝ := 100

/-- BambooClump.calculateHeight: logistic growth law of the schematic
renderer. -/
noncomputable def calculateHeight (progress : ℝ) : ℝ :=
  let maxHeight : ℝ := 2.55
  let minHeight : ℝ := 0.5
  let growthRate : ℝ := 15
  let midpoint : ℝ := 0.3
  minHeight + (maxHeight - minHeight) / (1 + Real.exp (-growthRate * (progress - midpoint)))

/-- BambooClump.calculatePoleCount: logistic pole count of the schematic
renderer, floored to an integer. -/
noncomputable def calculatePoleCount (progress : ℝ) : ℤ :=
  let minPoles : ℝ := 5
  let growthRate : ℝ := 15
  let midpoint : ℝ := 0.3
  ⌊minPoles + (maxPoles - minPoles) / (1 + Real.exp (-growthRate * (progress - midpoint)))⌋

/-- BambooClump.calculateCarbon: (height / 27) * (poleCount / 90) * 87.5,
rounded to one decimal (toFixed(1) followed by parseFloat). -/
noncomputable def calculateCarbon (height : ℝ) (poleCount : ℤ) : ℝ :=
  (round (height / 27 * ((poleCount : ℝ) / 90) * 87.5 * 10) : ℤ) / 10

end Schematic

namespace Geo

/-- Function seededRandom of the geo-referenced renderer: a cheap sine-based
deterministic hash of the seed into [0,1). -/
noncomputable def seededRandom (seed : ℝ) : ℝ :=
  let x := Real.sin (seed * 9999) * 10000
  x - ⌊x⌋

/-- Progress derived from the selected year in addBambooPlants:
clamp01((year - 2024) / 11). -/
noncomputable def geoProgress (year : ℤ) : ℝ :=
  max 0 (min 1 (((year : ℝ) - 2024) / 11))

/-- Base pole height of addBambooPlants: the logistic law with the
geo-referenced surface constants (0.5 to 25). -/
noncomputable def baseHeight (progress : ℝ) : ℝ :=
  let maxHeight : ℝ := 25
  let minHeight : ℝ := 0.5
  let growthRate : ℝ := 15
  let midpoint : ℝ := 0.3
  minHeight + (maxHeight - minHeight) / (1 + Real.exp (-growthRate * (progress - midpoint)))

/-- Pole count per clump of addBambooPlants: the logistic law with the
geo-referenced pole range (5 to 50), floored. -/
noncomputable def poleCountPerClump (progress : ℝ) : ℤ :=
  let minPoles : ℝ := 5
  let maxPoles : ℝ := 50
  ⌊minPoles + (maxPoles - minPoles) / (1 + Real.exp (-15 * (progress - 0.3)))⌋

/-- Input plot record of the geo-referenced renderer (the fields
addBambooPlants reads). -/
structure GeoPlot where
  latitude : ℝ
  longitude : ℝ
  areaHectares : ℝ

/-- One rendered bamboo pole of the geo-referenced renderer: position and
cylinder dimensions (the colour channels, also pure functions of the seeds,
are not needed by any claim and are not tracked). -/
structure GeoPole where
  lat : ℝ
  lng : ℝ
  len : ℝ
  topRadius : ℝ
  bottomRadius : ℝ

/-- One rendered clump of the geo-referenced renderer: the rhizome-mound
position and its poles. -/
structure GeoClump where
  lat : ℝ
  lng : ℝ
  poles : List GeoPole

/-- The inner pole loop of addBambooPlants for one clump. -/
noncomputable def clumpPolesList (clumpSeed clumpLat clumpLng progress baseH : ℝ)
    (n : ℕ) : List GeoPole :=
  (List.range n).map (fun p =>
    let poleSeed := clumpSeed + (p : ℝ) * 10
    let poleRadius := if seededRandom poleSeed < 0.3
      then seededRandom (poleSeed + 1) * 0.4
      else 0.5 + seededRandom (poleSeed + 1) * 1.0
    let poleAngle := seededRandom (poleSeed + 2) * Real.pi * 2
    let poleOffsetX := Real.cos poleAngle * poleRadius
    let poleOffsetZ := Real.sin poleAngle * poleRadius
    let poleOffsetLat := poleOffsetZ / 111320
    let poleOffsetLng := poleOffsetX / (111320 * Real.cos (clumpLat * Real.pi / 180))
    let poleLat := clumpLat + poleOffsetLat
    let poleLng := clumpLng + poleOffsetLng
    let heightVariation := 0.7 + seededRandom (poleSeed + 3) * 0.5
    let poleHeight := baseH * heightVariation
    let thicknessRandom := seededRandom (poleSeed + 4)
    let thickness := 0.06 + thicknessRandom * 0.08 + progress * 0.06
    ⟨poleLat, poleLng, poleHeight, thickness * 0.7, thickness⟩)

/-- Function addBambooPlants of the geo-referenced renderer.  The ambient
Math.random stream of the page is passed in to model the environment the
function runs in; the function body never draws from it (every random quantity
comes from seededRandom applied to seeds derived from the plot position and
the clump and pole indices). -/
noncomputable def addBambooPlants (ambient : RandStream) (plot : GeoPlot) (year : ℤ) :
    List GeoClump :=
  let progress := geoProgress year
  let baseH := baseHeight progress
  let poleCount := poleCountPerClump progress
  let plotSizeMeters := Real.sqrt (plot.areaHectares * 10000)
  let clumpsPerRow : ℤ := ⌊plotSizeMeters / 8⌋
  let totalClumps : ℤ := clumpsPerRow * clumpsPerRow
  let visibleClumps : ℤ := min totalClumps (round (plot.areaHectares * 150))
  let visibleGridSize : ℤ := ⌈Real.sqrt (visibleClumps : ℝ)⌉
  let plotSeed := |plot.latitude * 1000 + plot.longitude * 1000|
  let clumpSpacing : ℝ := 8
  let gridOffset := ((visibleGridSize : ℝ) - 1) * clumpSpacing / 2
  (List.range visibleClumps.toNat).map (fun i =>
    let row : ℤ := (i : ℤ) / visibleGridSize
    let col : ℤ := (i : ℤ) % visibleGridSize
    let clumpSeed := plotSeed + (i : ℝ) * 100
    let jitterX := (seededRandom clumpSeed - 0.5) * 2
    let jitterZ := (seededRandom (clumpSeed + 1) - 0.5) * 2
    let offsetX := -gridOffset + (col : ℝ) * clumpSpacing + jitterX
    let offsetZ := -gridOffset + (row : ℝ) * clumpSpacing + jitterZ
    let offsetLat := offsetZ / 111320
    let offsetLng := offsetX / (111320 * Real.cos (plot.latitude * Real.pi / 180))
    let clumpLat := plot.latitude + offsetLat
    let clumpLng := plot.longitude + offsetLng
    let polesInThisClump : ℤ := min poleCount 12
    ⟨clumpLat, clumpLng,
     clumpPolesList clumpSeed clumpLat clumpLng progress baseH polesInThisClump.toNat⟩)

end Geo

namespace Schematic

/-- One stalk record of the schematic renderer (interface BambooPole together
with the position and cylinder dimensions held by its mesh).  bottomRadius is
the radiusBottom parameter of the CylinderGeometry, thickness * (1.1 + r*0.2);
the colour, roughness, metalness and tilt draws of the source are consumed
from the stream but their values are not tracked. -/
structure Pole where
  x : ℝ
  z : ℝ
  thickness : ℝ
  bottomRadius : ℝ
  targetHeight : ℝ
  currentHeight : ℝ
  ageInYears : ℝ
  isHarvested : Bool
  growthFactor : ℝ

/-- Mutable state of a BambooClump instance. -/
structure ClumpState where
  poles : List Pole
  currentPoles : ℤ
  harvestedPoles : ℤ
  growthProgress : ℝ
  targetHeight : ℝ

/-- An entry of the existingPositions array of addNewPoles. -/
structure PosEntry where
  x : ℝ
  z : ℝ
  radius : ℝ

/-- The existingPositions array rebuilt at the top of addNewPoles: one entry
per live (non-harvested) pole, with exclusion radius radiusBottom * 1.2. -/
def existingFromPoles (poles : List Pole) : List PosEntry :=
  (poles.filter (fun p => !p.isHarvested)).map (fun p => ⟨p.x, p.z, p.bottomRadius * 1.2⟩)

/-- One candidate (position, thickness) draw of the rejection-sampling loop. -/
structure Candidate where
  x : ℝ
  z : ℝ
  thickness : ℝ

/-- One iteration of the candidate draw in the while loop of addNewPoles:
a branch draw (interior with probability 0.3), a radius draw, an angle draw
and a thickness draw, four stream values in program order. -/
noncomputable def drawCandidate (s : RandStream) (k : ℕ) : Candidate :=
  let radius := if s k < 0.3 then s (k + 1) * 0.6 else 0.8 + s (k + 1) * 1.0
  let angle := s (k + 2) * Real.pi * 2
  let x := Real.cos angle * radius
  let z := Real.sin angle * radius
  let thickness := if radius < 0.6 then 0.06 + s (k + 3) * 0.04 else 0.12 + s (k + 3) * 0.06
  ⟨x, z, thickness⟩

/-- The circle-circle overlap test of addNewPoles against one entry of
existingPositions. -/
noncomputable def overlapsB (c : Candidate) (e : PosEntry) : Bool :=
  decide (Real.sqrt ((c.x - e.x) * (c.x - e.x) + (c.z - e.z) * (c.z - e.z)) < c.thickness + e.radius)

/-- A candidate is valid when it overlaps no entry of existingPositions. -/
noncomputable def validCandidate (c : Candidate) (existing : List PosEntry) : Bool :=
  existing.all (fun e => !overlapsB c e)

/-- The while loop of addNewPoles for one stalk: repeat the four-value draw
until a valid candidate appears or the shared attempts budget runs out.  fuel
is maxAttempts minus the attempts already counted; the result carries the
accepted candidate (if any), the number of attempts consumed, and the stream
index after the loop. -/
noncomputable def placeLoop (s : RandStream) (existing : List PosEntry) :
    ℕ → ℕ → Option Candidate × ℕ × ℕ
  | 0, k => (none, 0, k)
  | fuel + 1, k =>
      let c := drawCandidate s k
      if validCandidate c existing then (some c, 1, k + 4)
      else
        let r := placeLoop s existing fuel (k + 4)
        (r.1, r.2.1 + 1, r.2.2)

/-- The accepted-stalk construction of addNewPoles: height variation, top
thinning, bottom radius, five material draws, two tilt draws and the growth
rate factor, eleven stream values in program order.  The new pole starts at
currentHeight 0.5, age 0, not harvested. -/
noncomputable def acceptPole (s : RandStream) (k : ℕ) (c : Candidate) : Pole × ℕ :=
  let height := 30 + s k * 25
  let bottomRadius := c.thickness * (1.1 + s (k + 2) * 0.2)
  let growthRateFactor := 1.2 + s (k + 10) * 0.4
  (⟨c.x, c.z, c.thickness, bottomRadius, height, 0.5, 0, false, growthRateFactor⟩, k + 11)

/-- The for loop of addNewPoles over the requested count: attempts is the
shared attemptsCounter (maxAttempts = 100), acc accumulates the accepted
poles in order; an accepted candidate is pushed onto existingPositions with
exclusion radius thickness * 1.2 before the pole record is built. -/
noncomputable def addLoop (s : RandStream) :
    ℕ → List PosEntry → List Pole → ℕ → ℕ → List Pole × ℕ × ℕ
  | 0, _, acc, attempts, k => (acc, attempts, k)
  | count + 1, existing, acc, attempts, k =>
      let r := placeLoop s existing (100 - attempts) k
      match r.1 with
      | none => addLoop s count existing acc (attempts + r.2.1) r.2.2
      | some c =>
          let pk := acceptPole s r.2.2 c
          addLoop s count (existing ++ [⟨c.x, c.z, c.thickness * 1.2⟩]) (acc ++ [pk.1])
            (attempts + r.2.1) pk.2

/-- BambooClump.addNewPoles: rebuild existingPositions from the live poles,
run the sampling loop for count stalks under the shared 100-attempt budget,
append the accepted pole records, and add the full requested count to
currentPoles (line 404 of the source runs outside the placement loop). -/
noncomputable def addNewPoles (st : ClumpState) (s : RandStream) (count : ℕ) (k : ℕ) :
    ClumpState × ℕ :=
  let r := addLoop s count (existingFromPoles st.poles) [] 0 k
  ({ st with poles := st.poles ++ r.1, currentPoles := st.currentPoles + (count : ℤ) }, r.2.2)

/-- Mark the poles at the given indices as harvested (the source mutates the
selected pole objects through the references held by the sorted array; the
list positions of all poles are unchanged). -/
def markIdx (chosen : List ℕ) : List Pole → ℕ → List Pole
  | [], _ => []
  | p :: rest, i =>
      (if i ∈ chosen then { p with isHarvested := true } else p) :: markIdx chosen rest (i + 1)

/-- The eligible set of harvestMaturePoles: indexed poles with
ageInYears >= 3 and not yet harvested, in list order. -/
noncomputable def matureOf (poles : List Pole) : List (ℕ × Pole) :=
  poles.enum.filter (fun ip => decide (3 ≤ ip.2.ageInYears) && !ip.2.isHarvested)

/-- The comparator sort of harvestMaturePoles: stable sort of the eligible
set by descending age (the source sorts with (a, b) => b.ageInYears -
a.ageInYears). -/
noncomputable def sortedMature (poles : List Pole) : List (ℕ × Pole) :=
  (matureOf poles).mergeSort (fun a b => decide (b.2.ageInYears ≤ a.2.ageInYears))

/-- BambooClump.harvestMaturePoles: below progress 0.3 do nothing; otherwise
select the eligible poles, and mark the oldest ceil(20%) of them as harvested,
incrementing harvestedPoles once per marked pole. -/
noncomputable def harvestMaturePoles (st : ClumpState) (growthProgress : ℝ) : ClumpState :=
  if growthProgress < 0.3 then st
  else
    let mature := matureOf st.poles
    let polesToHarvest : ℤ := ⌈(mature.length : ℝ) * 0.2⌉
    if polesToHarvest = 0 then st
    else
      let chosen := ((sortedMature st.poles).take (min polesToHarvest.toNat mature.length)).map
        (fun ip => ip.1)
      { st with
        poles := markIdx chosen st.poles 0,
        harvestedPoles := st.harvestedPoles + (chosen.length : ℤ) }

/-- The per-pole forEach of BambooClump.update: set the age of every pole,
and for live poles recompute the height scale (the three colour draws per
live pole are consumed from the stream, their values untracked). -/
noncomputable def updatePoles (g targetHeight : ℝ) (s : RandStream) :
    List Pole → ℕ → List Pole × ℕ
  | [], k => ([], k)
  | p :: rest, k =>
      let p1 := { p with ageInYears := g * 10 }
      if p1.isHarvested then
        let r := updatePoles g targetHeight s rest k
        (p1 :: r.1, r.2)
      else
        let normalizedHeight := (targetHeight - 0.5) / (4.5 - 0.5)
        let individualGrowth := normalizedHeight * p1.growthFactor
        let scaleY := min 0.99 (max 0.01 (individualGrowth * 0.99 + 0.01))
        let p2 := { p1 with currentHeight := p1.targetHeight * scaleY }
        let r := updatePoles g targetHeight s rest (k + 3)
        (p2 :: r.1, r.2)

/-- The record returned by BambooClump.update. -/
structure UpdateResult where
  height : ℝ
  poleCount : ℤ
  carbon : ℝ

/-- BambooClump.update: clamp the progress, recompute the growth targets, add
poles up to the target count, with probability 0.02 past progress 0.5 run the
harvest scheduler, refresh every pole, and return height, live pole count and
carbon. -/
noncomputable def update (st : ClumpState) (s : RandStream) (growthProgress : ℝ) (k : ℕ) :
    ClumpState × UpdateResult × ℕ :=
  let g := max 0 (min 1 growthProgress)
  let targetHeight := calculateHeight g
  let targetPoles := calculatePoleCount g
  let st1 := { st with growthProgress := g, targetHeight := targetHeight }
  let r1 := if targetPoles > st1.currentPoles
    then addNewPoles st1 s (targetPoles - st1.currentPoles).toNat k
    else (st1, k)
  let st2 := if s r1.2 < 0.02 ∧ g > 0.5 then harvestMaturePoles r1.1 g else r1.1
  let r3 := updatePoles g targetHeight s st2.poles (r1.2 + 1)
  let st3 := { st2 with poles := r3.1 }
  let finalHeight := max 0.5 targetHeight
  let finalPoleCount := max 5 (st3.currentPoles - st3.harvestedPoles)
  let finalCarbon := max 0 (calculateCarbon finalHeight finalPoleCount)
  (st3, ⟨finalHeight, finalPoleCount, finalCarbon⟩, r3.2)

/-- The BambooClump constructor: empty state, then addNewPoles(5).  The
rhizome mound consumes no randomness. -/
noncomputable def initClump (s : RandStream) (k : ℕ) : ClumpState × ℕ :=
  addNewPoles ⟨[], 0, 0, 0, 0.5⟩ s 5 k

/-- A sequence of update invocations, each with its own ambient stream
position (stream and starting index) and progress value. -/
noncomputable def runUpdates : ClumpState → List (RandStream × ℝ × ℕ) → ClumpState
  | st, [] => st
  | st, a :: rest => runUpdates (update st a.1 a.2.1 a.2.2).1 rest

/-- The freshly constructed clump state before any pole is added. -/
noncomputable def st0 : ClumpState := ⟨[], 0, 0, 0, 0.5⟩

/-- Number of live (non-harvested) stalk records. -/
def liveCount (poles : List Pole) : ℕ := (poles.filter (fun p => !p.isHarvested)).length

/-- Number of stalk records flagged as harvested. -/
def countHarvested (poles : List Pole) : ℕ := List.countP (fun p => p.isHarvested) poles

/-- Separation requirement of the rejection sampler between an earlier stalk p
and a later stalk q: the center distance is at least the thickness of the later
stalk plus 1.2 times the thickness of the earlier one (the radii used by the
circle-circle test of addNewPoles). -/
noncomputable def sepDist (p q : Pole) : Prop :=
  q.thickness + 1.2 * p.thickness ≤
    Real.sqrt ((q.x - p.x) * (q.x - p.x) + (q.z - p.z) * (q.z - p.z))

/-- Non-overlap invariant over a pole list: every pair of live stalks, in
creation order, satisfies the separation requirement. -/
noncomputable def PolesSep (poles : List Pole) : Prop :=
  ∀ i j (hi : i < poles.length) (hj : j < poles.length), i < j →
    (poles.get ⟨i, hi⟩).isHarvested = false → (poles.get ⟨j, hj⟩).isHarvested = false →
    sepDist (poles.get ⟨i, hi⟩) (poles.get ⟨j, hj⟩)

/-- Well-formedness of a stalk record: nonnegative thickness and a geometry
bottom radius at least 1.1 times the thickness (as built by acceptPole from
draws in [0,1)). -/
noncomputable def PoleWF (p : Pole) : Prop := 0 ≤ p.thickness ∧ 1.1 * p.thickness ≤ p.bottomRadius

/-- Every live pole of the list has a matching entry of existingPositions
whose exclusion radius is at least 1.2 times the pole thickness. -/
noncomputable def Covers (existing : List PosEntry) (poles : List Pole) : Prop :=
  ∀ p ∈ poles, p.isHarvested = false →
    ∃ e ∈ existing, e.x = p.x ∧ e.z = p.z ∧ 1.2 * p.thickness ≤ e.radius

end Schematic

/-- An ambient stream all of whose draws are 0.5. -/
noncomputable def halfStream : RandStream := fun _ => (0.5 : ℝ)

/-- An ambient stream all of whose draws are 0. -/
noncomputable def zeroStream : RandStream := fun _ => (0 : ℝ)

namespace Schematic

/-- The single stalk produced by the sampling loop under halfStream: candidate
radius 1.3, angle pi, thickness 0.15, bottom radius 0.18, target height 42.5,
growth factor 1.4. -/
noncomputable def pole05 : Pole := ⟨-1.3, 0, 0.15, 0.18, 42.5, 0.5, 0, false, 1.4⟩

/-- The clump state after the constructor runs under halfStream: one stalk
record, currentPoles 5. -/
noncomputable def stInit05 : ClumpState := ⟨[pole05], 5, 0, 0, 0.5⟩

/-- A state holding one already harvested stalk, used to witness flag
preservation. -/
noncomputable def stHarvested : ClumpState :=
  ⟨[⟨0, 0, 0.15, 0.18, 42.5, 0.5, 4, true, 1.4⟩], 1, 1, 0.4, 0.5⟩

end Schematic

/-! Theorems.  First the numeric endpoint bounds of the logistic growth law,
then the claims over the card economics, the growth curve, the spatial layout
state machine, the harvest scheduler and the carbon derivations. -/

namespace Schematic

lemma exp45_gt : (67.4 : ℝ) < Real.exp 4.5 := by
  have h1 : (1.125 : ℝ) ≤ Real.exp 0.125 := by
    have := Real.add_one_le_exp (0.125 : ℝ); linarith
  have h2 : Real.exp 4.5 = Real.exp 0.125 ^ 36 := by
    rw [← Real.exp_nat_mul]; norm_num
  calc (67.4 : ℝ) < 1.125 ^ 36 := by norm_num
    _ ≤ Real.exp 0.125 ^ 36 := pow_le_pow_left₀ (by norm_num) h1 36
    _ = Real.exp 4.5 := h2.symm

lemma exp45_lt : Real.exp 4.5 < 94 := by
  have he1 : Real.exp 1 < 2.7182818286 := Real.exp_one_lt_d9
  have h05sq : Real.exp 0.5 ^ 2 = Real.exp 1 := by
    rw [← Real.exp_nat_mul]; norm_num
  have h05 : Real.exp 0.5 < 1.64873 := by
    have h2 : Real.exp 0.5 ^ 2 < 1.64873 ^ 2 := by rw [h05sq]; nlinarith
    exact lt_of_pow_lt_pow_left₀ 2 (by norm_num) h2
  have h4 : Real.exp 4 = Real.exp 1 ^ 4 := by
    rw [← Real.exp_nat_mul]; norm_num
  have h4lt : Real.exp 4 < 2.7182818286 ^ 4 := by
    rw [h4]
    exact pow_lt_pow_left₀ he1 (Real.exp_pos 1).le (by norm_num)
  have hsplit : Real.exp 4.5 = Real.exp 4 * Real.exp 0.5 := by
    rw [← Real.exp_add]; norm_num
  calc Real.exp 4.5 = Real.exp 4 * Real.exp 0.5 := hsplit
    _ < 2.7182818286 ^ 4 * 1.64873 :=
        mul_lt_mul' h4lt.le h05 (Real.exp_pos _).le (by positivity)
    _ < 94 := by norm_num

lemma exp105_gt : (2100 : ℝ) < Real.exp 10.5 := by
  have h1 : (1.5 : ℝ) ≤ Real.exp 0.5 := by
    have := Real.add_one_le_exp (0.5 : ℝ); linarith
  have h2 : Real.exp 10.5 = Real.exp 0.5 ^ 21 := by
    rw [← Real.exp_nat_mul]; norm_num
  calc (2100 : ℝ) < 1.5 ^ 21 := by norm_num
    _ ≤ Real.exp 0.5 ^ 21 := pow_le_pow_left₀ (by norm_num) h1 21
    _ = Real.exp 10.5 := h2.symm

lemma poleCount_zero : calculatePoleCount 0 = 6 := by
  have harg : (-15 : ℝ) * (0 - 0.3) = 4.5 := by norm_num
  have hE1 := exp45_gt
  have hE2 := exp45_lt
  have hpos : (0 : ℝ) < 1 + Real.exp 4.5 := by positivity
  simp only [calculatePoleCount, maxPoles, harg]
  rw [Int.floor_eq_iff]
  constructor
  · have h : (1 : ℝ) ≤ (100 - 5) / (1 + Real.exp 4.5) := (one_le_div hpos).mpr (by linarith)
    push_cast
    linarith
  · have h : (100 - 5 : ℝ) / (1 + Real.exp 4.5) < 2 := (div_lt_iff₀ hpos).mpr (by linarith)
    push_cast
    linarith

lemma poleCount_one : calculatePoleCount 1 = 99 := by
  have harg : (-15 : ℝ) * (1 - 0.3) = -10.5 := by norm_num
  have hE := exp105_gt
  have htpos : (0 : ℝ) < Real.exp (-10.5) := Real.exp_pos _
  have ht : Real.exp (-10.5) < 1 / 2100 := by
    rw [Real.exp_neg, inv_lt_comm₀ (Real.exp_pos _) (by norm_num)]
    calc ((1 : ℝ) / 2100)⁻¹ = 2100 := by norm_num
      _ < Real.exp 10.5 := hE
  have hpos : (0 : ℝ) < 1 + Real.exp (-10.5) := by positivity
  simp only [calculatePoleCount, maxPoles, harg]
  rw [Int.floor_eq_iff]
  constructor
  · have h : (94 : ℝ) ≤ (100 - 5) / (1 + Real.exp (-10.5)) := by
      rw [le_div_iff₀ hpos]; nlinarith
    push_cast
    linarith
  · have h : (100 - 5 : ℝ) / (1 + Real.exp (-10.5)) < 95 := by
      rw [div_lt_iff₀ hpos]; nlinarith
    push_cast
    linarith

lemma height_zero_bounds : 0.5 < calculateHeight 0 ∧ calculateHeight 0 < 0.53 := by
  have harg : (-15 : ℝ) * (0 - 0.3) = 4.5 := by norm_num
  have hE1 := exp45_gt
  have hE2 := exp45_lt
  have hpos : (0 : ℝ) < 1 + Real.exp 4.5 := by positivity
  simp only [calculateHeight, harg]
  constructor
  · have h : (0 : ℝ) < (2.55 - 0.5) / (1 + Real.exp 4.5) := by positivity
    linarith
  · have h : (2.55 - 0.5 : ℝ) / (1 + Real.exp 4.5) < 0.03 := by
      rw [div_lt_iff₀ hpos]; linarith
    linarith

lemma height_one_bounds : 2.549 < calculateHeight 1 ∧ calculateHeight 1 < 2.55 := by
  have harg : (-15 : ℝ) * (1 - 0.3) = -10.5 := by norm_num
  have hE := exp105_gt
  have htpos : (0 : ℝ) < Real.exp (-10.5) := Real.exp_pos _
  have ht : Real.exp (-10.5) < 1 / 2100 := by
    rw [Real.exp_neg, inv_lt_comm₀ (Real.exp_pos _) (by norm_num)]
    calc ((1 : ℝ) / 2100)⁻¹ = 2100 := by norm_num
      _ < Real.exp 10.5 := hE
  have hpos : (0 : ℝ) < 1 + Real.exp (-10.5) := by positivity
  simp only [calculateHeight, harg]
  constructor
  · have h : (2.049 : ℝ) < (2.55 - 0.5) / (1 + Real.exp (-10.5)) := by
      rw [lt_div_iff₀ hpos]; nlinarith
    linarith
  · have h : (2.55 - 0.5 : ℝ) / (1 + Real.exp (-10.5)) < 2.05 := by
      rw [div_lt_iff₀ hpos]; nlinarith
    linarith

lemma logistic_le {minv maxv k m : ℝ} (hk : 0 ≤ k) (hb : minv ≤ maxv) {p1 p2 : ℝ}
    (h : p1 ≤ p2) :
    minv + (maxv - minv) / (1 + Real.exp (-k * (p1 - m))) ≤
      minv + (maxv - minv) / (1 + Real.exp (-k * (p2 - m))) := by
  have hexp : Real.exp (-k * (p2 - m)) ≤ Real.exp (-k * (p1 - m)) :=
    Real.exp_le_exp.mpr (by nlinarith)
  have hp2 : (0 : ℝ) < 1 + Real.exp (-k * (p2 - m)) := by positivity
  have hd := div_le_div_of_nonneg_left (by linarith : (0 : ℝ) ≤ maxv - minv) hp2
    (by linarith : 1 + Real.exp (-k * (p2 - m)) ≤ 1 + Real.exp (-k * (p1 - m)))
  linarith

lemma calcHeight_mono {p1 p2 : ℝ} (h : p1 ≤ p2) : calculateHeight p1 ≤ calculateHeight p2 := by
  simp only [calculateHeight]
  exact logistic_le (by norm_num) (by norm_num) h

lemma calcPoleCount_mono {p1 p2 : ℝ} (h : p1 ≤ p2) :
    calculatePoleCount p1 ≤ calculatePoleCount p2 := by
  simp only [calculatePoleCount, maxPoles]
  exact Int.floor_le_floor (logistic_le (by norm_num) (by norm_num) h)

end Schematic

namespace Geo

lemma baseHeight_mono {p1 p2 : ℝ} (h : p1 ≤ p2) : baseHeight p1 ≤ baseHeight p2 := by
  simp only [baseHeight]
  exact Schematic.logistic_le (by norm_num) (by norm_num) h

lemma poleCountPerClump_mono {p1 p2 : ℝ} (h : p1 ≤ p2) :
    poleCountPerClump p1 ≤ poleCountPerClump p2 := by
  simp only [poleCountPerClump]
  exact Int.floor_le_floor (Schematic.logistic_le (by norm_num) (by norm_num) h)

end Geo

/-- C9: the geo-referenced economics derivation satisfies the reference
formulas: annual carbon income equals areaHectares times
carbonRatePerHaPerYear(progress) times carbonPricePerTon, harvest income
equals harvestablePolesPerYear times polePrice, and harvest income is exactly
0 for every year before the harvest threshold year (plantingYear +
harvestStartYear) is reached. -/
theorem geo_economics_reference_formulas (areaHectares : ℚ) (year : ℤ) :
    (Cards.economics areaHectares year).carbonIncome =
      areaHectares * (Cards.carbonRatePerHa * (Cards.economics areaHectares year).progress) *
        Cards.carbonPricePerTon ∧
    (Cards.economics areaHectares year).harvestIncome =
      (Cards.economics areaHectares year).harvestablePolesPerYear * Cards.polePrice ∧
    ((year : ℚ) < (Cards.plantingYear : ℚ) + (Cards.harvestStartYear : ℚ) →
      (Cards.economics areaHectares year).harvestIncome = 0) := by
  refine ⟨?_, ?_, ?_⟩
  · simp only [Cards.economics]
  · simp only [Cards.economics]
  · intro h
    have h5 : ¬ ((Cards.harvestStartYear : ℚ) ≤ max 0 ((year : ℚ) - (Cards.plantingYear : ℚ))) := by
      simp only [Cards.harvestStartYear, Cards.plantingYear] at *
      push_neg
      rw [max_lt_iff]
      constructor <;> [norm_num; linarith]
    simp only [Cards.economics, decide_eq_false h5]
    norm_num

/-- Witness for C9 at a concrete plot of 2 hectares in year 2030 (one year
before the harvest threshold). -/
theorem geo_economics_reference_formulas_witness :
    (Cards.economics 2 2030).carbonIncome =
      2 * (Cards.carbonRatePerHa * (Cards.economics 2 2030).progress) * Cards.carbonPricePerTon ∧
    (Cards.economics 2 2030).harvestIncome = 0 :=
  ⟨(geo_economics_reference_formulas 2 2030).1,
   (geo_economics_reference_formulas 2 2030).2.2
     (by norm_num [Cards.plantingYear, Cards.harvestStartYear])⟩

lemma econ_neg_area_carbon : (Cards.economics (-1) 2031).carbonIncome < 0 := by
  norm_num [Cards.economics, Cards.carbonRatePerHa, Cards.carbonPricePerTon,
    Cards.plantingYear, Cards.harvestStartYear, Cards.clumpsPerHa,
    Cards.harvestablePolesPerClumpPerYear, Cards.polePrice, round_eq]

lemma econ_neg_area_harvest : (Cards.economics (-1) 2031).harvestIncome < 0 := by
  norm_num [Cards.economics, Cards.carbonRatePerHa, Cards.carbonPricePerTon,
    Cards.plantingYear, Cards.harvestStartYear, Cards.clumpsPerHa,
    Cards.harvestablePolesPerClumpPerYear, Cards.polePrice, round_eq]

/-- Counterexample for C7: at plot area -1 hectare in year 2031, the
geo-referenced economics derivation returns strictly negative carbon income
and strictly negative harvest income instead of the claimed 0. -/
theorem econ_negative_area_cx :
    (Cards.economics (-1) 2031).carbonIncome < 0 ∧
    (Cards.economics (-1) 2031).harvestIncome < 0 :=
  ⟨econ_neg_area_carbon, econ_neg_area_harvest⟩

/-- Counterexample for C2: at progress 1 the pole count of the schematic
growth curve is 99 and not the configured maximum 100 (the logistic value at
the domain edge, not the clamped extreme). -/
theorem growth_curve_endpoint_cx :
    Schematic.calculatePoleCount 1 = 99 ∧ (99 : ℤ) ≠ 100 :=
  ⟨Schematic.poleCount_one, by norm_num⟩

lemma update_height_eq (st : Schematic.ClumpState) (s : RandStream) (p : ℝ) (k : ℕ) :
    (Schematic.update st s p k).2.1.height =
      max 0.5 (Schematic.calculateHeight (max 0 (min 1 p))) := rfl

/-- C2 amended: the update of the schematic clump clamps its progress argument
to [0,1] (not extrapolating), but the values returned at the edges are the
logistic values at 0 and 1, not the configured extremes: poleCount(0) = 6
(not the minimum 5), poleCount(1) = 99 (not the maximum 100), height(0) lies
strictly between 0.5 and 0.53 (not equal to the minimum 0.5), and height(1)
lies within 0.001 of the maximum 2.55. -/
theorem growth_curve_clamps_to_logistic_endpoints
    (st : Schematic.ClumpState) (s : RandStream) (k : ℕ) (p q : ℝ)
    (hp : p ≤ 0) (hq : 1 ≤ q) :
    (Schematic.update st s p k).2.1.height = Schematic.calculateHeight 0 ∧
    (Schematic.update st s q k).2.1.height = Schematic.calculateHeight 1 ∧
    Schematic.calculatePoleCount 0 = 6 ∧
    Schematic.calculatePoleCount 1 = 99 ∧
    0.5 < Schematic.calculateHeight 0 ∧ Schematic.calculateHeight 0 < 0.53 ∧
    2.549 < Schematic.calculateHeight 1 ∧ Schematic.calculateHeight 1 < 2.55 := by
  have hcl0 : max 0 (min 1 p) = (0 : ℝ) := by
    rw [min_eq_right (by linarith : p ≤ 1), max_eq_left (by linarith : p ≤ 0)]
  have hcl1 : max 0 (min 1 q) = (1 : ℝ) := by
    rw [min_eq_left hq, max_eq_right (by norm_num : (0 : ℝ) ≤ 1)]
  refine ⟨?_, ?_, Schematic.poleCount_zero, Schematic.poleCount_one,
    Schematic.height_zero_bounds.1, Schematic.height_zero_bounds.2,
    Schematic.height_one_bounds.1, Schematic.height_one_bounds.2⟩
  · rw [update_height_eq, hcl0, max_eq_right Schematic.height_zero_bounds.1.le]
  · rw [update_height_eq, hcl1,
      max_eq_right (by linarith [Schematic.height_one_bounds.1] : (0.5 : ℝ) ≤ Schematic.calculateHeight 1)]

/-- Witness for C2 at progress -1 (below the domain) and 2 (above it), on the
empty initial state with the constant 0.5 stream. -/
theorem growth_curve_clamps_witness :
    (Schematic.update Schematic.st0 halfStream (-1) 0).2.1.height =
      Schematic.calculateHeight 0 ∧
    (Schematic.update Schematic.st0 halfStream 2 0).2.1.height =
      Schematic.calculateHeight 1 ∧
    Schematic.calculatePoleCount 0 = 6 ∧
    Schematic.calculatePoleCount 1 = 99 :=
  ⟨(growth_curve_clamps_to_logistic_endpoints Schematic.st0 halfStream 0 (-1) 2
      (by norm_num) (by norm_num)).1,
   (growth_curve_clamps_to_logistic_endpoints Schematic.st0 halfStream 0 (-1) 2
      (by norm_num) (by norm_num)).2.1,
   (growth_curve_clamps_to_logistic_endpoints Schematic.st0 halfStream 0 (-1) 2
      (by norm_num) (by norm_num)).2.2.1,
   (growth_curve_clamps_to_logistic_endpoints Schematic.st0 halfStream 0 (-1) 2
      (by norm_num) (by norm_num)).2.2.2.1⟩

/-- C3: the growth curve model is monotonic on [0,1]: for progress p1 < p2,
height and pole count are non-decreasing, in both the schematic and the
geo-referenced surface constants. -/
theorem growth_curve_monotone (p1 p2 : ℝ) (h0 : 0 ≤ p1) (h : p1 < p2) (h1 : p2 ≤ 1) :
    Schematic.calculateHeight p1 ≤ Schematic.calculateHeight p2 ∧
    Schematic.calculatePoleCount p1 ≤ Schematic.calculatePoleCount p2 ∧
    Geo.baseHeight p1 ≤ Geo.baseHeight p2 ∧
    Geo.poleCountPerClump p1 ≤ Geo.poleCountPerClump p2 :=
  ⟨Schematic.calcHeight_mono h.le, Schematic.calcPoleCount_mono h.le,
   Geo.baseHeight_mono h.le, Geo.poleCountPerClump_mono h.le⟩

/-- Witness for C3 at the pair 0 < 1. -/
theorem growth_curve_monotone_witness :
    Schematic.calculateHeight 0 ≤ Schematic.calculateHeight 1 ∧
    Schematic.calculatePoleCount 0 ≤ Schematic.calculatePoleCount 1 ∧
    Geo.baseHeight 0 ≤ Geo.baseHeight 1 ∧
    Geo.poleCountPerClump 0 ≤ Geo.poleCountPerClump 1 :=
  growth_curve_monotone 0 1 (by norm_num) (by norm_num) (by norm_num)

namespace Schematic

lemma placeLoop_attempts (s : RandStream) (existing : List PosEntry) :
    ∀ fuel k, (placeLoop s existing fuel k).2.1 ≤ fuel := by
  intro fuel
  induction fuel with
  | zero => intro k; simp [placeLoop]
  | succ n ih =>
      intro k
      simp only [placeLoop]
      split
      · simp
      · simpa using Nat.add_le_add_right (ih (k + 4)) 1

lemma addLoop_attempts (s : RandStream) :
    ∀ count existing acc attempts k, attempts ≤ 100 →
      (addLoop s count existing acc attempts k).2.1 ≤ 100 := by
  intro count
  induction count with
  | zero => intro existing acc attempts k h; simpa [addLoop] using h
  | succ n ih =>
      intro existing acc attempts k h
      have hb := placeLoop_attempts s existing (100 - attempts) k
      have h2 : attempts + (placeLoop s existing (100 - attempts) k).2.1 ≤ 100 := by omega
      simp only [addLoop]
      rcases hres : (placeLoop s existing (100 - attempts) k).1 with _ | c
      · simp only [hres]
        exact ih _ _ _ _ h2
      · simp only [hres]
        exact ih _ _ _ _ h2

lemma addLoop_length (s : RandStream) :
    ∀ count existing acc attempts k,
      (addLoop s count existing acc attempts k).1.length ≤ acc.length + count := by
  intro count
  induction count with
  | zero => intro existing acc attempts k; simp [addLoop]
  | succ n ih =>
      intro existing acc attempts k
      simp only [addLoop]
      rcases hres : (placeLoop s existing (100 - attempts) k).1 with _ | c
      · simp only [hres]
        have := ih existing acc (attempts + (placeLoop s existing (100 - attempts) k).2.1)
          (placeLoop s existing (100 - attempts) k).2.2
        omega
      · simp only [hres]
        have := ih (existing ++ [⟨c.x, c.z, c.thickness * 1.2⟩]) (acc ++ [(acceptPole s
          (placeLoop s existing (100 - attempts) k).2.2 c).1])
          (attempts + (placeLoop s existing (100 - attempts) k).2.1)
          (acceptPole s (placeLoop s existing (100 - attempts) k).2.2 c).2
        simp only [List.length_append, List.length_cons, List.length_nil] at this
        omega

lemma addNewPoles_length (st : ClumpState) (s : RandStream) (count k : ℕ) :
    (addNewPoles st s count k).1.poles.length ≤ st.poles.length + count := by
  have h := addLoop_length s count (existingFromPoles st.poles) [] 0 k
  simp only [addNewPoles, List.length_append, List.length_nil] at *
  omega

end Schematic

/-- C8: the rejection sampler is bounded by the retry budget: the while loop
consumes at most its remaining fuel, the shared attempts counter of one
addNewPoles call never exceeds 100, and on exhausting the budget stalks are
skipped, so at most count records are appended (the loop functions are
structurally recursive on the remaining budget, hence total: no unbounded
looping and no error path exists). -/
theorem rejection_sampling_budget :
    (∀ (s : RandStream) existing fuel k,
      (Schematic.placeLoop s existing fuel k).2.1 ≤ fuel) ∧
    (∀ (s : RandStream) count existing acc attempts k, attempts ≤ 100 →
      (Schematic.addLoop s count existing acc attempts k).2.1 ≤ 100) ∧
    (∀ (s : RandStream) count existing acc attempts k,
      (Schematic.addLoop s count existing acc attempts k).1.length ≤ acc.length + count) ∧
    (∀ st (s : RandStream) count k,
      (Schematic.addNewPoles st s count k).1.poles.length ≤ st.poles.length + count) :=
  ⟨fun s existing fuel k => Schematic.placeLoop_attempts s existing fuel k,
   fun s count existing acc attempts k h => Schematic.addLoop_attempts s count existing acc attempts k h,
   fun s count existing acc attempts k => Schematic.addLoop_length s count existing acc attempts k,
   fun st s count k => Schematic.addNewPoles_length st s count k⟩

/-- Witness for C8 on the constant 0.5 stream, the empty clump and a request
of five stalks starting from a fresh attempts counter. -/
theorem rejection_sampling_budget_witness :
    (Schematic.addLoop halfStream 5 [] [] 0 0).2.1 ≤ 100 ∧
    (Schematic.addNewPoles Schematic.st0 halfStream 5 0).1.poles.length ≤
      Schematic.st0.poles.length + 5 :=
  ⟨rejection_sampling_budget.2.1 halfStream 5 [] [] 0 0 (by norm_num),
   rejection_sampling_budget.2.2.2 Schematic.st0 halfStream 5 0⟩

namespace Schematic

lemma draw_half (k : ℕ) : drawCandidate halfStream k = ⟨-1.3, 0, 0.15⟩ := by
  have hangle : (0.5 : ℝ) * Real.pi * 2 = Real.pi := by ring
  simp only [drawCandidate, halfStream]
  rw [if_neg (by norm_num : ¬ ((0.5 : ℝ) < 0.3))]
  rw [if_neg (by norm_num : ¬ ((0.8 : ℝ) + 0.5 * 1.0 < 0.6))]
  rw [hangle, Real.cos_pi, Real.sin_pi]
  norm_num

lemma draw_zero (k : ℕ) : drawCandidate zeroStream k = ⟨0, 0, 0.06⟩ := by
  simp only [drawCandidate, zeroStream]
  rw [if_pos (by norm_num : (0 : ℝ) < 0.3)]
  rw [if_pos (by norm_num : (0 : ℝ) * 0.6 < 0.6)]
  norm_num

lemma accept_half (k : ℕ) : acceptPole halfStream k ⟨-1.3, 0, 0.15⟩ = (pole05, k + 11) := by
  simp only [acceptPole, halfStream, pole05]
  norm_num

lemma valid_nil (c : Candidate) : validCandidate c [] = true := rfl

lemma overlap_same (x z t r : ℝ) (ht : 0 < t + r) :
    overlapsB ⟨x, z, t⟩ ⟨x, z, r⟩ = true := by
  simp only [overlapsB, decide_eq_true_eq]
  have h0 : (x - x) * (x - x) + (z - z) * (z - z) = 0 := by ring
  rw [h0, Real.sqrt_zero]
  exact ht

lemma reject_single (r : ℝ) (hr : 0 < 0.15 + r) :
    validCandidate ⟨-1.3, 0, 0.15⟩ [⟨-1.3, 0, r⟩] = false := by
  simp [validCandidate, overlap_same (-1.3) 0 0.15 r hr]

lemma placeLoop_accept (s : RandStream) (E : List PosEntry) (fuel k : ℕ)
    (h : validCandidate (drawCandidate s k) E = true) :
    placeLoop s E (fuel + 1) k = (some (drawCandidate s k), 1, k + 4) := by
  simp [placeLoop, h]

lemma placeLoop_rejectAll (s : RandStream) (E : List PosEntry)
    (hE : ∀ k, validCandidate (drawCandidate s k) E = false) :
    ∀ fuel k, placeLoop s E fuel k = (none, fuel, k + 4 * fuel) := by
  intro fuel
  induction fuel with
  | zero => intro k; simp [placeLoop]
  | succ n ih =>
      intro k
      simp only [placeLoop, hE k]
      simp [ih (k + 4)]
      omega

lemma addLoop_allreject (s : RandStream) (E : List PosEntry) (acc : List Pole)
    (hE : ∀ k, validCandidate (drawCandidate s k) E = false) :
    ∀ count attempts k, 0 < count → attempts ≤ 100 →
      addLoop s count E acc attempts k = (acc, 100, k + 4 * (100 - attempts)) := by
  intro count
  induction count with
  | zero => intro attempts k hc; omega
  | succ n ih =>
      intro attempts k hc ha
      have hpl := placeLoop_rejectAll s E hE (100 - attempts) k
      simp only [addLoop, hpl]
      rcases Nat.eq_zero_or_pos n with hn | hn
      · subst hn
        simp only [addLoop, Prod.mk.injEq, eq_self_iff_true, true_and, and_true]
        omega
      · rw [ih (attempts + (100 - attempts)) (k + 4 * (100 - attempts)) hn (by omega)]
        simp only [Prod.mk.injEq, eq_self_iff_true, true_and, and_true]
        omega

lemma addLoop_step_accept (s : RandStream) (n : ℕ) (E : List PosEntry) (acc : List Pole)
    (a k : ℕ) (c : Candidate) (used k2 : ℕ)
    (h : placeLoop s E (100 - a) k = (some c, used, k2)) :
    addLoop s (n + 1) E acc a k =
      addLoop s n (E ++ [⟨c.x, c.z, c.thickness * 1.2⟩]) (acc ++ [(acceptPole s k2 c).1])
        (a + used) (acceptPole s k2 c).2 := by
  simp only [addLoop, h]

lemma addLoop5_half (k : ℕ) :
    addLoop halfStream 5 [] [] 0 k = ([pole05], 100, k + 411) := by
  have hval : validCandidate (drawCandidate halfStream k) [] = true := valid_nil _
  have h1 : placeLoop halfStream [] (100 - 0) k =
      (some (⟨-1.3, 0, 0.15⟩ : Candidate), 1, k + 4) := by
    have h2 : placeLoop halfStream [] (99 + 1) k = (some (drawCandidate halfStream k), 1, k + 4) :=
      placeLoop_accept halfStream [] 99 k hval
    rw [draw_half k] at h2
    exact h2
  have hE : ∀ j, validCandidate (drawCandidate halfStream j)
      [⟨-1.3, 0, 0.15 * 1.2⟩] = false := by
    intro j
    rw [draw_half]
    exact reject_single (0.15 * 1.2) (by norm_num)
  show addLoop halfStream (4 + 1) [] [] 0 k = _
  rw [addLoop_step_accept halfStream 4 [] [] 0 k ⟨-1.3, 0, 0.15⟩ 1 (k + 4) h1]
  rw [accept_half (k + 4)]
  simp only [List.nil_append]
  rw [addLoop_allreject halfStream [⟨-1.3, 0, 0.15 * 1.2⟩] [pole05] hE 4 (0 + 1)
    (k + 4 + 11) (by norm_num) (by norm_num)]

lemma initClump_half (k : ℕ) : initClump halfStream k = (stInit05, k + 411) := by
  unfold initClump addNewPoles
  have hex : existingFromPoles (⟨[], 0, 0, 0, 0.5⟩ : ClumpState).poles = [] := rfl
  rw [hex, addLoop5_half k]
  simp only [stInit05, List.nil_append, Prod.mk.injEq, ClumpState.mk.injEq]
  norm_num

lemma addOne_poles (s : RandStream) :
    (addNewPoles st0 s 1 0).1.poles = [(acceptPole s 4 (drawCandidate s 0)).1] := by
  unfold addNewPoles
  have hex : existingFromPoles st0.poles = [] := rfl
  rw [hex]
  have h1 : placeLoop s [] (100 - 0) 0 = (some (drawCandidate s 0), 1, 0 + 4) :=
    placeLoop_accept s [] 99 0 (valid_nil _)
  show (({ st0 with
      poles := st0.poles ++ (addLoop s (0 + 1) [] [] 0 0).1,
      currentPoles := st0.currentPoles + ((1 : ℕ) : ℤ) }, (addLoop s (0 + 1) [] [] 0 0).2.2) :
      ClumpState × ℕ).1.poles = _
  rw [addLoop_step_accept s 0 [] [] 0 0 (drawCandidate s 0) 1 (0 + 4) h1]
  simp [addLoop, st0]

lemma addOne_zero_thickness :
    (addNewPoles st0 zeroStream 1 0).1.poles.map Pole.thickness = [(0.06 : ℝ)] := by
  rw [addOne_poles zeroStream, draw_zero 0]
  simp [acceptPole]

lemma addOne_half_thickness :
    (addNewPoles st0 halfStream 1 0).1.poles.map Pole.thickness = [(0.15 : ℝ)] := by
  rw [addOne_poles halfStream, draw_half 0]
  simp [acceptPole]

end Schematic

/-- C1 amended: the geo-referenced Spatial Layout Generator is deterministic
(a pure function of the plot and the year: two invocations under arbitrary
ambient Math.random streams return identical clump and stalk layouts, every
random quantity coming from the seeded generator), but the schematic clump
generator draws from the unseeded ambient stream, so its stalk layout differs
between environments with different ambient streams. -/
theorem geo_layout_deterministic_schematic_not (plot : Geo.GeoPlot) (year : ℤ)
    (ambient1 ambient2 : RandStream) :
    Geo.addBambooPlants ambient1 plot year = Geo.addBambooPlants ambient2 plot year ∧
    (Schematic.addNewPoles Schematic.st0 zeroStream 1 0).1.poles.map Schematic.Pole.thickness ≠
      (Schematic.addNewPoles Schematic.st0 halfStream 1 0).1.poles.map Schematic.Pole.thickness := by
  constructor
  · rfl
  · rw [Schematic.addOne_zero_thickness, Schematic.addOne_half_thickness]
    simp only [ne_eq, List.cons.injEq, and_true]
    norm_num

/-- Counterexample for C1: the schematic clump generator invoked on the same
fresh state with the same requested count, but under two different ambient
Math.random streams (all draws 0 versus all draws 0.5), creates stalks of
different thickness (0.06 versus 0.15): the schematic layout depends on
unseeded ambient randomness. -/
theorem schematic_layout_ambient_dependent_cx :
    (Schematic.addNewPoles Schematic.st0 zeroStream 1 0).1.poles.map Schematic.Pole.thickness =
      [(0.06 : ℝ)] ∧
    (Schematic.addNewPoles Schematic.st0 halfStream 1 0).1.poles.map Schematic.Pole.thickness =
      [(0.15 : ℝ)] ∧
    ((0.06 : ℝ)) ≠ 0.15 :=
  ⟨Schematic.addOne_zero_thickness, Schematic.addOne_half_thickness, by norm_num⟩

namespace Schematic

lemma get_idx_congr {α : Type} (l : List α) (a b : ℕ) (ha : a < l.length) (hb : b < l.length)
    (h : a = b) : l.get ⟨a, ha⟩ = l.get ⟨b, hb⟩ := by
  subst h
  rfl

lemma updatePoles_length (g th : ℝ) (s : RandStream) :
    ∀ (l : List Pole) (k : ℕ), ((updatePoles g th s l k).1).length = l.length := by
  intro l
  induction l with
  | nil => intro k; rfl
  | cons p rest ih =>
      intro k
      simp only [updatePoles]
      split
      · simp [ih]
      · simp [ih]

/-- Projection of a pole to the fields that updatePoles never changes. -/
def geomFlag (p : Pole) : ℝ × ℝ × ℝ × ℝ × Bool :=
  (p.x, p.z, p.thickness, p.bottomRadius, p.isHarvested)

lemma map_eq_get_proj {α : Type} {β : Type} (f : α → β) (l1 l2 : List α)
    (h : l1.map f = l2.map f) (j : ℕ) (h1 : j < l1.length) (h2 : j < l2.length) :
    f (l1.get ⟨j, h1⟩) = f (l2.get ⟨j, h2⟩) := by
  have e0 := List.get_of_eq h ⟨j, by simpa using h1⟩
  simpa using e0

lemma updatePoles_proj (g th : ℝ) (s : RandStream) :
    ∀ (l : List Pole) (k : ℕ),
      ((updatePoles g th s l k).1).map geomFlag = l.map geomFlag := by
  intro l
  induction l with
  | nil => intro k; rfl
  | cons p rest ih =>
      intro k
      simp only [updatePoles]
      split
      · simp [geomFlag, ih]
      · simp [geomFlag, ih]

lemma updatePoles_liveCount (g th : ℝ) (s : RandStream) :
    ∀ (l : List Pole) (k : ℕ), liveCount ((updatePoles g th s l k).1) = liveCount l := by
  intro l
  induction l with
  | nil => intro k; rfl
  | cons p rest ih =>
      intro k
      simp only [updatePoles]
      split
      · rename_i hflag
        simp only [liveCount, List.filter_cons] at *
        simp only [hflag] at *
        simp [ih]
      · rename_i hflag
        simp only [liveCount, List.filter_cons] at *
        simp only [Bool.not_eq_true] at hflag
        simp only [hflag] at *
        simp [ih]

lemma updatePoles_countHarvested (g th : ℝ) (s : RandStream) :
    ∀ (l : List Pole) (k : ℕ),
      countHarvested ((updatePoles g th s l k).1) = countHarvested l := by
  intro l
  induction l with
  | nil => intro k; rfl
  | cons p rest ih =>
      intro k
      simp only [updatePoles]
      split
      · rename_i hflag
        simp only [countHarvested, List.countP_cons] at *
        simp [hflag, ih]
      · rename_i hflag
        simp only [Bool.not_eq_true] at hflag
        simp only [countHarvested, List.countP_cons] at *
        simp [hflag, ih]

lemma markIdx_length (ch : List ℕ) :
    ∀ (l : List Pole) (i : ℕ), (markIdx ch l i).length = l.length := by
  intro l
  induction l with
  | nil => intro i; rfl
  | cons p rest ih => intro i; simp [markIdx, ih]

lemma markIdx_get (ch : List ℕ) :
    ∀ (l : List Pole) (i j : ℕ) (hj : j < l.length) (hj2 : j < (markIdx ch l i).length),
      (markIdx ch l i).get ⟨j, hj2⟩ =
        if (i + j) ∈ ch then { l.get ⟨j, hj⟩ with isHarvested := true } else l.get ⟨j, hj⟩ := by
  intro l
  induction l with
  | nil => intro i j hj; exact absurd hj (by simp)
  | cons p rest ih =>
      intro i j hj hj2
      cases j with
      | zero => simp [markIdx]
      | succ j =>
          have hj3 : j < rest.length := by simpa using hj
          have hj4 : j < (markIdx ch rest (i + 1)).length := by rw [markIdx_length]; exact hj3
          have hstep : (markIdx ch (p :: rest) i).get ⟨j + 1, hj2⟩ =
              (markIdx ch rest (i + 1)).get ⟨j, hj4⟩ := by
            simp [markIdx]
          rw [hstep, ih (i + 1) j hj3 hj4]
          have hidx : i + 1 + j = i + (j + 1) := by omega
          rw [hidx]
          have hcs : (p :: rest).get ⟨j + 1, hj⟩ = rest.get ⟨j, hj3⟩ := List.get_cons_succ
          rw [hcs]

lemma markIdx_congr :
    ∀ (ch ch2 : List ℕ) (l : List Pole) (i : ℕ),
      (∀ n, i ≤ n → (n ∈ ch ↔ n ∈ ch2)) → markIdx ch l i = markIdx ch2 l i := by
  intro ch ch2 l
  induction l with
  | nil => intro i h; rfl
  | cons p rest ih =>
      intro i h
      have htail := ih (i + 1) (fun n hn => h n (by omega))
      have hhead : (if i ∈ ch then ({ p with isHarvested := true }) else p) =
          (if i ∈ ch2 then ({ p with isHarvested := true }) else p) := by
        by_cases hc : i ∈ ch
        · rw [if_pos hc, if_pos ((h i (le_refl i)).mp hc)]
        · rw [if_neg hc, if_neg (fun hc2 => hc ((h i (le_refl i)).mpr hc2))]
      simp only [markIdx]
      rw [hhead, htail]

lemma markIdx_countP :
    ∀ (l : List Pole) (ch : List ℕ) (i : ℕ), ch.Nodup →
      (∀ n ∈ ch, i ≤ n ∧ n < i + l.length) →
      (∀ n ∈ ch, ∀ h2 : n - i < l.length, (l.get ⟨n - i, h2⟩).isHarvested = false) →
      List.countP (fun p => p.isHarvested) (markIdx ch l i) =
        List.countP (fun p => p.isHarvested) l + ch.length := by
  intro l
  induction l with
  | nil =>
      intro ch i hnd hrange hflags
      cases ch with
      | nil => rfl
      | cons a t =>
          have := hrange a (List.mem_cons_self a t)
          simp only [List.length_nil] at this
          omega
  | cons p rest ih =>
      intro ch i hnd hrange hflags
      by_cases hmem : i ∈ ch
      · have hpflag : p.isHarvested = false := by
          have h0 : i - i < (p :: rest).length := by simp
          have := hflags i hmem h0
          have hg : (p :: rest).get ⟨i - i, h0⟩ = p := by
            rw [get_idx_congr (p :: rest) (i - i) 0 h0 (by simp) (by omega)]
            exact List.get_cons_zero
          rwa [hg] at this
        have hcongr : markIdx ch rest (i + 1) = markIdx (ch.erase i) rest (i + 1) := by
          apply markIdx_congr
          intro n hn
          rw [hnd.mem_erase_iff]
          constructor
          · intro h; exact ⟨by omega, h⟩
          · intro h; exact h.2
        have ihh := ih (ch.erase i) (i + 1) (hnd.erase i)
          (fun n hn => by
            have h1 := (hnd.mem_erase_iff.mp hn).1
            have h2 := hrange n (hnd.mem_erase_iff.mp hn).2
            simp only [List.length_cons] at h2
            constructor
            · omega
            · omega)
          (fun n hn h2 => by
            have hch := (hnd.mem_erase_iff.mp hn).2
            have hne := (hnd.mem_erase_iff.mp hn).1
            have hr := hrange n hch
            have h3 : n - i < (p :: rest).length := by simp; omega
            have hfl := hflags n hch h3
            have hget : (p :: rest).get ⟨n - i, h3⟩ = rest.get ⟨n - (i + 1), h2⟩ := by
              have h4 : (n - (i + 1)) + 1 < (p :: rest).length := by simp; omega
              rw [get_idx_congr (p :: rest) (n - i) ((n - (i + 1)) + 1) h3 h4 (by omega)]
              exact List.get_cons_succ
            rw [← hget]
            exact hfl)
        have hmark : List.countP (fun q => q.isHarvested) (markIdx ch (p :: rest) i) =
            List.countP (fun q => q.isHarvested) (markIdx (ch.erase i) rest (i + 1)) + 1 := by
          simp only [markIdx, if_pos hmem, List.countP_cons, hcongr]
          simp
        have hlen : (ch.erase i).length = ch.length - 1 := List.length_erase_of_mem hmem
        have hchpos : 0 < ch.length :=
          List.length_pos.mpr (by rintro rfl; exact List.not_mem_nil i hmem)
        rw [hmark, ihh, List.countP_cons]
        simp only [hpflag]
        simp only [Bool.false_eq_true, if_false]
        omega
      · have ihh := ih ch (i + 1) hnd
          (fun n hn => by
            have h2 := hrange n hn
            have hne : n ≠ i := by rintro rfl; exact hmem hn
            simp only [List.length_cons] at h2
            constructor
            · omega
            · omega)
          (fun n hn h2 => by
            have hr := hrange n hn
            have hne : n ≠ i := by rintro rfl; exact hmem hn
            have h3 : n - i < (p :: rest).length := by simp; omega
            have hfl := hflags n hn h3
            have hget : (p :: rest).get ⟨n - i, h3⟩ = rest.get ⟨n - (i + 1), h2⟩ := by
              have h4 : (n - (i + 1)) + 1 < (p :: rest).length := by simp; omega
              rw [get_idx_congr (p :: rest) (n - i) ((n - (i + 1)) + 1) h3 h4 (by omega)]
              exact List.get_cons_succ
            rw [← hget]
            exact hfl)
        have hmark : List.countP (fun q => q.isHarvested) (markIdx ch (p :: rest) i) =
            List.countP (fun q => q.isHarvested) (markIdx ch rest (i + 1)) +
              (if p.isHarvested = true then 1 else 0) := by
          simp only [markIdx, if_neg hmem, List.countP_cons]
        rw [hmark, ihh, List.countP_cons]
        omega

lemma addNewPoles_stInit05 (k : ℕ) :
    addNewPoles ({ poles := stInit05.poles,
                   currentPoles := stInit05.currentPoles,
                   harvestedPoles := stInit05.harvestedPoles,
                   growthProgress := 0,
                   targetHeight := calculateHeight 0 } : ClumpState)
      halfStream 1 k =
    ({ poles := [pole05], currentPoles := 6, harvestedPoles := 0, growthProgress := 0,
       targetHeight := calculateHeight 0 }, k + 400) := by
  unfold addNewPoles
  have hex : existingFromPoles
      (({ poles := stInit05.poles,
          currentPoles := stInit05.currentPoles,
          harvestedPoles := stInit05.harvestedPoles,
          growthProgress := 0,
          targetHeight := calculateHeight 0 } : ClumpState)).poles =
      [⟨-1.3, 0, 0.18 * 1.2⟩] := by
    simp [existingFromPoles, stInit05, pole05]
  rw [hex]
  have hE : ∀ j, validCandidate (drawCandidate halfStream j) [⟨-1.3, 0, 0.18 * 1.2⟩] = false := by
    intro j
    rw [draw_half]
    exact reject_single (0.18 * 1.2) (by norm_num)
  rw [addLoop_allreject halfStream [⟨-1.3, 0, 0.18 * 1.2⟩] [] hE 1 0 k (by norm_num) (by norm_num)]
  simp only [stInit05, List.append_nil, Prod.mk.injEq, ClumpState.mk.injEq]
  norm_num

lemma update_run05 :
    (update stInit05 halfStream 0 411).1.currentPoles = 6 ∧
    (update stInit05 halfStream 0 411).1.harvestedPoles = 0 ∧
    liveCount (update stInit05 halfStream 0 411).1.poles = 1 := by
  have hg : max (0 : ℝ) (min 1 0) = (0 : ℝ) := by norm_num
  have hcond : calculatePoleCount (0 : ℝ) > stInit05.currentPoles := by
    rw [poleCount_zero]
    norm_num [stInit05]
  have hcnt : (calculatePoleCount (0 : ℝ) - stInit05.currentPoles).toNat = 1 := by
    rw [poleCount_zero]
    norm_num [stInit05]
  simp only [update, hg, if_pos hcond, hcnt]
  rw [addNewPoles_stInit05 411]
  have hnoh : ∀ x : ℕ, ¬ (halfStream x < 0.02 ∧ (0 : ℝ) > 0.5) := by
    intro x
    rintro ⟨h1, h2⟩
    norm_num at h2
  rw [if_neg (hnoh _)]
  refine ⟨rfl, rfl, ?_⟩
  have hl := updatePoles_liveCount 0 (calculateHeight 0) halfStream [pole05]
  simp only [hl]
  simp [liveCount, pole05]

end Schematic

/-- C10: addNewPoles always adds the full requested count to currentPoles,
even when rejection sampling skipped stalks without creating a record; the
poleCount returned by update is max 5 (currentPoles - harvestedPoles); and on
a concrete run (constructor plus one update under the constant 0.5 ambient
stream) the returned poleCount 6 exceeds the single live stalk record
actually present. -/
theorem currentPoles_counts_requested_not_placed :
    (∀ st (s : RandStream) (count k : ℕ),
      (Schematic.addNewPoles st s count k).1.currentPoles = st.currentPoles + count) ∧
    (∀ st (s : RandStream) (g : ℝ) (k : ℕ),
      (Schematic.update st s g k).2.1.poleCount =
        max 5 ((Schematic.update st s g k).1.currentPoles -
          (Schematic.update st s g k).1.harvestedPoles)) ∧
    ((Schematic.update Schematic.stInit05 halfStream 0 411).2.1.poleCount = 6 ∧
      Schematic.liveCount (Schematic.update Schematic.stInit05 halfStream 0 411).1.poles = 1 ∧
      (1 : ℕ) < 6) := by
  refine ⟨fun st s count k => rfl, fun st s g k => rfl, ?_, Schematic.update_run05.2.2, by norm_num⟩
  have h := Schematic.update_run05
  have heq : (Schematic.update Schematic.stInit05 halfStream 0 411).2.1.poleCount =
      max 5 ((Schematic.update Schematic.stInit05 halfStream 0 411).1.currentPoles -
        (Schematic.update Schematic.stInit05 halfStream 0 411).1.harvestedPoles) := rfl
  rw [heq, h.1, h.2.1]
  norm_num

namespace Schematic

lemma mem_enum_fact (l : List Pole) (n : ℕ) (q : Pole) (h : (n, q) ∈ l.enum) :
    ∃ hn : n < l.length, l.get ⟨n, hn⟩ = q := by
  rw [List.mem_iff_get] at h
  obtain ⟨j, hj⟩ := h
  have hlen : (j : ℕ) < l.length := by
    have h2 := j.2
    simpa [List.enum_length] using h2
  have he : l.enum.get j = ((j : ℕ), l.get ⟨(j : ℕ), hlen⟩) := by
    rw [List.get_eq_getElem, List.getElem_enum]
    simp
  rw [he] at hj
  have h1 : (j : ℕ) = n := congrArg Prod.fst hj
  have h2 : l.get ⟨(j : ℕ), hlen⟩ = q := congrArg Prod.snd hj
  subst h1
  exact ⟨hlen, h2⟩

lemma enum_mem_intro (l : List Pole) (n : ℕ) (hn : n < l.length) :
    (n, l.get ⟨n, hn⟩) ∈ l.enum := by
  rw [List.mem_iff_get]
  refine ⟨⟨n, by simpa [List.enum_length] using hn⟩, ?_⟩
  rw [List.get_eq_getElem, List.getElem_enum]
  simp

lemma matureOf_mem (poles : List Pole) (n : ℕ) (q : Pole) (h : (n, q) ∈ matureOf poles) :
    ∃ hn : n < poles.length,
      poles.get ⟨n, hn⟩ = q ∧ 3 ≤ q.ageInYears ∧ q.isHarvested = false := by
  unfold matureOf at h
  rw [List.mem_filter] at h
  obtain ⟨henum, hpred⟩ := h
  simp only [Bool.and_eq_true, decide_eq_true_eq, Bool.not_eq_true'] at hpred
  obtain ⟨hn, hget⟩ := mem_enum_fact poles n q henum
  exact ⟨hn, hget, hpred.1, hpred.2⟩

lemma matureOf_intro (poles : List Pole) (n : ℕ) (hn : n < poles.length)
    (hage : 3 ≤ (poles.get ⟨n, hn⟩).ageInYears)
    (hflag : (poles.get ⟨n, hn⟩).isHarvested = false) :
    (n, poles.get ⟨n, hn⟩) ∈ matureOf poles := by
  unfold matureOf
  rw [List.mem_filter]
  refine ⟨enum_mem_intro poles n hn, ?_⟩
  simp only [Bool.and_eq_true, decide_eq_true_eq, Bool.not_eq_true']
  exact ⟨hage, hflag⟩

lemma sortedMature_perm (poles : List Pole) : (sortedMature poles).Perm (matureOf poles) :=
  List.mergeSort_perm _ _

lemma matureOf_fst_nodup (poles : List Pole) : ((matureOf poles).map Prod.fst).Nodup := by
  have hsub : (matureOf poles).Sublist poles.enum := List.filter_sublist _
  have hsub2 : ((matureOf poles).map Prod.fst).Sublist (poles.enum.map Prod.fst) :=
    hsub.map _
  rw [List.enum_map_fst] at hsub2
  exact hsub2.nodup (List.nodup_range _)

lemma sortedMature_fst_nodup (poles : List Pole) : ((sortedMature poles).map Prod.fst).Nodup := by
  have hp : ((sortedMature poles).map Prod.fst).Perm ((matureOf poles).map Prod.fst) :=
    (sortedMature_perm poles).map _
  exact hp.nodup_iff.mpr (matureOf_fst_nodup poles)

lemma sortedMature_pairwise (poles : List Pole) :
    (sortedMature poles).Pairwise
      (fun a b => decide (b.2.ageInYears ≤ a.2.ageInYears) = true) := by
  apply List.sorted_mergeSort
  · intro a b c hab hbc
    simp only [decide_eq_true_eq] at *
    exact le_trans hbc hab
  · intro a b
    simp only [Bool.or_eq_true, decide_eq_true_eq]
    exact le_total b.2.ageInYears a.2.ageInYears

lemma sortedMature_length (poles : List Pole) :
    (sortedMature poles).length = (matureOf poles).length :=
  (sortedMature_perm poles).length_eq

/-- All facts of one harvestMaturePoles invocation past the progress guard:
sizes and counters, the exact number marked, and the dichotomy at every index
(either untouched, or newly marked, eligible, and at least as old as every
eligible pole left unmarked). -/
lemma harvest_spec (st : ClumpState) (g : ℝ) (hg : 0.3 ≤ g) :
    (harvestMaturePoles st g).poles.length = st.poles.length ∧
    (harvestMaturePoles st g).currentPoles = st.currentPoles ∧
    (harvestMaturePoles st g).harvestedPoles =
      st.harvestedPoles + ((⌈((matureOf st.poles).length : ℝ) * 0.2⌉.toNat : ℕ) : ℤ) ∧
    countHarvested (harvestMaturePoles st g).poles =
      countHarvested st.poles + ⌈((matureOf st.poles).length : ℝ) * 0.2⌉.toNat ∧
    (∀ j (hj : j < st.poles.length) (hj2 : j < (harvestMaturePoles st g).poles.length),
      ((harvestMaturePoles st g).poles.get ⟨j, hj2⟩ = st.poles.get ⟨j, hj⟩) ∨
      ((harvestMaturePoles st g).poles.get ⟨j, hj2⟩ =
          { st.poles.get ⟨j, hj⟩ with isHarvested := true } ∧
        (st.poles.get ⟨j, hj⟩).isHarvested = false ∧
        3 ≤ (st.poles.get ⟨j, hj⟩).ageInYears ∧
        ∀ m (hm : m < st.poles.length) (hm2 : m < (harvestMaturePoles st g).poles.length),
          3 ≤ (st.poles.get ⟨m, hm⟩).ageInYears →
          (st.poles.get ⟨m, hm⟩).isHarvested = false →
          ((harvestMaturePoles st g).poles.get ⟨m, hm2⟩).isHarvested = false →
          (st.poles.get ⟨m, hm⟩).ageInYears ≤ (st.poles.get ⟨j, hj⟩).ageInYears)) := by
  have hguard : ¬ (g < 0.3) := not_lt.mpr hg
  by_cases h0 : (⌈(((matureOf st.poles).length : ℕ) : ℝ) * 0.2⌉ : ℤ) = 0
  · have hres : harvestMaturePoles st g = st := by
      unfold harvestMaturePoles
      rw [if_neg hguard, if_pos h0]
    rw [hres, h0]
    refine ⟨rfl, rfl, by simp, by simp, ?_⟩
    intro j hj hj2
    left
    exact get_idx_congr st.poles j j hj2 hj rfl
  · have hres : harvestMaturePoles st g =
        { st with
          poles := markIdx
            (((sortedMature st.poles).take
              (min (⌈(((matureOf st.poles).length : ℕ) : ℝ) * 0.2⌉.toNat)
                (matureOf st.poles).length)).map Prod.fst) st.poles 0,
          harvestedPoles := st.harvestedPoles +
            (((((sortedMature st.poles).take
              (min (⌈(((matureOf st.poles).length : ℕ) : ℝ) * 0.2⌉.toNat)
                (matureOf st.poles).length)).map Prod.fst).length : ℕ) : ℤ) } := by
      unfold harvestMaturePoles
      rw [if_neg hguard, if_neg h0]
    have hPTnn : (0 : ℤ) ≤ ⌈(((matureOf st.poles).length : ℕ) : ℝ) * 0.2⌉ :=
      Int.ceil_nonneg (by positivity)
    have hmlen : 0 < (matureOf st.poles).length := by
      by_contra hml
      have hml0 : (matureOf st.poles).length = 0 := by omega
      apply h0
      rw [hml0]
      norm_num
    have hPTle : (⌈(((matureOf st.poles).length : ℕ) : ℝ) * 0.2⌉ : ℤ) ≤
        (matureOf st.poles).length := by
      rw [Int.ceil_le]
      push_cast
      nlinarith [Nat.cast_nonneg (α := ℝ) (matureOf st.poles).length]
    have hmin : min (⌈(((matureOf st.poles).length : ℕ) : ℝ) * 0.2⌉.toNat)
        (matureOf st.poles).length = ⌈(((matureOf st.poles).length : ℕ) : ℝ) * 0.2⌉.toNat := by
      apply min_eq_left
      rw [Int.toNat_le]
      exact_mod_cast hPTle
    have hchlen : ((((sortedMature st.poles).take
        (min (⌈(((matureOf st.poles).length : ℕ) : ℝ) * 0.2⌉.toNat)
          (matureOf st.poles).length)).map Prod.fst).length) =
        ⌈(((matureOf st.poles).length : ℕ) : ℝ) * 0.2⌉.toNat := by
      rw [List.length_map, List.length_take, sortedMature_length, hmin]
      have : (⌈(((matureOf st.poles).length : ℕ) : ℝ) * 0.2⌉.toNat) ≤
          (matureOf st.poles).length := by
        rw [Int.toNat_le]
        exact_mod_cast hPTle
      omega
    have hchnodup : ((((sortedMature st.poles).take
        (min (⌈(((matureOf st.poles).length : ℕ) : ℝ) * 0.2⌉.toNat)
          (matureOf st.poles).length)).map Prod.fst)).Nodup := by
      have hsub : (((sortedMature st.poles).take
          (min (⌈(((matureOf st.poles).length : ℕ) : ℝ) * 0.2⌉.toNat)
            (matureOf st.poles).length)).map Prod.fst).Sublist
          ((sortedMature st.poles).map Prod.fst) :=
        (List.take_sublist _ _).map _
      exact hsub.nodup (sortedMature_fst_nodup st.poles)
    have hchfacts : ∀ n ∈ (((sortedMature st.poles).take
        (min (⌈(((matureOf st.poles).length : ℕ) : ℝ) * 0.2⌉.toNat)
          (matureOf st.poles).length)).map Prod.fst),
        ∃ hn : n < st.poles.length,
          3 ≤ (st.poles.get ⟨n, hn⟩).ageInYears ∧
          (st.poles.get ⟨n, hn⟩).isHarvested = false := by
      intro n hn
      rw [List.mem_map] at hn
      obtain ⟨pr, hpr, hfst⟩ := hn
      have hmem : pr ∈ matureOf st.poles :=
        (sortedMature_perm st.poles).mem_iff.mp (List.mem_of_mem_take hpr)
      obtain ⟨hlt, hget, hage, hflag⟩ := matureOf_mem st.poles pr.1 pr.2 (by
        have : pr = (pr.1, pr.2) := rfl
        rwa [← this])
      subst hfst
      exact ⟨hlt, by rw [hget]; exact hage, by rw [hget]; exact hflag⟩
    refine ⟨?_, ?_, ?_, ?_, ?_⟩
    · rw [hres]
      exact markIdx_length _ st.poles 0
    · rw [hres]
    · rw [hres]
      simp only [hchlen]
    · rw [hres]
      have hcount := markIdx_countP st.poles
        (((sortedMature st.poles).take
          (min (⌈(((matureOf st.poles).length : ℕ) : ℝ) * 0.2⌉.toNat)
            (matureOf st.poles).length)).map Prod.fst) 0 hchnodup
        (fun n hn => by
          obtain ⟨hlt, _, _⟩ := hchfacts n hn
          omega)
        (fun n hn h2 => by
          obtain ⟨hlt, _, hflag⟩ := hchfacts n hn
          rw [get_idx_congr st.poles (n - 0) n h2 hlt (by omega)]
          exact hflag)
      simp only [countHarvested]
      rw [hcount, hchlen]
    · intro j hj hj2
      have hj2m : j < (markIdx (((sortedMature st.poles).take
          (min (⌈(((matureOf st.poles).length : ℕ) : ℝ) * 0.2⌉.toNat)
            (matureOf st.poles).length)).map Prod.fst) st.poles 0).length := by
        rw [markIdx_length]
        exact hj
      have hgets : (harvestMaturePoles st g).poles.get ⟨j, hj2⟩ =
          (markIdx (((sortedMature st.poles).take
            (min (⌈(((matureOf st.poles).length : ℕ) : ℝ) * 0.2⌉.toNat)
              (matureOf st.poles).length)).map Prod.fst) st.poles 0).get ⟨j, hj2m⟩ := by
        apply List.get_of_eq
        rw [hres]
      rw [hgets, markIdx_get _ st.poles 0 j hj hj2m, zero_add]
      by_cases hjch : j ∈ (((sortedMature st.poles).take
          (min (⌈(((matureOf st.poles).length : ℕ) : ℝ) * 0.2⌉.toNat)
            (matureOf st.poles).length)).map Prod.fst)
      · right
        obtain ⟨hlt, hage, hflag⟩ := hchfacts j hjch
        rw [if_pos hjch]
        refine ⟨rfl, hflag, hage, ?_⟩
        intro m hm hm2 hmage hmflag hmflag2
        have hm2m : m < (markIdx (((sortedMature st.poles).take
            (min (⌈(((matureOf st.poles).length : ℕ) : ℝ) * 0.2⌉.toNat)
              (matureOf st.poles).length)).map Prod.fst) st.poles 0).length := by
          rw [markIdx_length]
          exact hm
        have hgetm : (harvestMaturePoles st g).poles.get ⟨m, hm2⟩ =
            (markIdx (((sortedMature st.poles).take
              (min (⌈(((matureOf st.poles).length : ℕ) : ℝ) * 0.2⌉.toNat)
                (matureOf st.poles).length)).map Prod.fst) st.poles 0).get ⟨m, hm2m⟩ := by
          apply List.get_of_eq
          rw [hres]
        rw [hgetm, markIdx_get _ st.poles 0 m hm hm2m, zero_add] at hmflag2
        have hmch : m ∉ (((sortedMature st.poles).take
            (min (⌈(((matureOf st.poles).length : ℕ) : ℝ) * 0.2⌉.toNat)
              (matureOf st.poles).length)).map Prod.fst) := by
          intro hmem
          rw [if_pos hmem] at hmflag2
          simp at hmflag2
        rw [if_neg hmch] at hmflag2
        -- locate the pairs of j and m in the sorted eligible list
        rw [List.mem_map] at hjch
        obtain ⟨prj, hprj, hfstj⟩ := hjch
        have hmmem : (m, st.poles.get ⟨m, hm⟩) ∈ matureOf st.poles :=
          matureOf_intro st.poles m hm hmage hmflag
        have hmsorted : (m, st.poles.get ⟨m, hm⟩) ∈ sortedMature st.poles :=
          (sortedMature_perm st.poles).mem_iff.mpr hmmem
        have hmdrop : (m, st.poles.get ⟨m, hm⟩) ∈ (sortedMature st.poles).drop
            (min (⌈(((matureOf st.poles).length : ℕ) : ℝ) * 0.2⌉.toNat)
              (matureOf st.poles).length) := by
          have hsplit := List.take_append_drop
            (min (⌈(((matureOf st.poles).length : ℕ) : ℝ) * 0.2⌉.toNat)
              (matureOf st.poles).length) (sortedMature st.poles)
          rw [← hsplit] at hmsorted
          rcases List.mem_append.mp hmsorted with hin | hin
          · exact absurd (List.mem_map.mpr ⟨_, hin, rfl⟩) hmch
          · exact hin
        have hpairsplit := sortedMature_pairwise st.poles
        rw [← List.take_append_drop
          (min (⌈(((matureOf st.poles).length : ℕ) : ℝ) * 0.2⌉.toNat)
            (matureOf st.poles).length) (sortedMature st.poles)] at hpairsplit
        have hcross := (List.pairwise_append.mp hpairsplit).2.2 prj hprj _ hmdrop
        simp only [decide_eq_true_eq] at hcross
        -- identify the age of the pair of j with the age of the pole at j
        have hjmem : prj ∈ matureOf st.poles :=
          (sortedMature_perm st.poles).mem_iff.mp (List.mem_of_mem_take hprj)
        obtain ⟨hlt2, hget2, _, _⟩ := matureOf_mem st.poles prj.1 prj.2 (by
          have : prj = (prj.1, prj.2) := rfl
          rwa [← this])
        have hgetj : prj.2 = st.poles.get ⟨j, hj⟩ := by
          rw [← hget2]
          exact (get_idx_congr st.poles prj.1 j hlt2 hj (by rw [hfstj])).symm ▸ rfl
        rw [← hgetj]
        exact hcross
      · left
        rw [if_neg hjch]

end Schematic

/-- C5: a triggered harvest scheduler invocation (progress at least the 0.3
eligibility guard) acts exactly on the eligible set: the stalk list keeps its
length, exactly the ceiling of 20 percent of the eligible count (age at least
3 simulated years, not yet harvested) are newly marked, the harvested counter
grows by that same number, every newly marked stalk is eligible and at least
as old as every eligible stalk left unmarked, and every other stalk record is
untouched. -/
theorem harvest_acts_on_eligible_set (st : Schematic.ClumpState) (g : ℝ) (hg : 0.3 ≤ g) :
    (Schematic.harvestMaturePoles st g).poles.length = st.poles.length ∧
    (Schematic.harvestMaturePoles st g).currentPoles = st.currentPoles ∧
    (Schematic.harvestMaturePoles st g).harvestedPoles =
      st.harvestedPoles +
        ((⌈((Schematic.matureOf st.poles).length : ℝ) * 0.2⌉.toNat : ℕ) : ℤ) ∧
    Schematic.countHarvested (Schematic.harvestMaturePoles st g).poles =
      Schematic.countHarvested st.poles +
        ⌈((Schematic.matureOf st.poles).length : ℝ) * 0.2⌉.toNat ∧
    (∀ j (hj : j < st.poles.length)
        (hj2 : j < (Schematic.harvestMaturePoles st g).poles.length),
      ((Schematic.harvestMaturePoles st g).poles.get ⟨j, hj2⟩ = st.poles.get ⟨j, hj⟩) ∨
      ((Schematic.harvestMaturePoles st g).poles.get ⟨j, hj2⟩ =
          { st.poles.get ⟨j, hj⟩ with isHarvested := true } ∧
        (st.poles.get ⟨j, hj⟩).isHarvested = false ∧
        3 ≤ (st.poles.get ⟨j, hj⟩).ageInYears ∧
        ∀ m (hm : m < st.poles.length)
            (hm2 : m < (Schematic.harvestMaturePoles st g).poles.length),
          3 ≤ (st.poles.get ⟨m, hm⟩).ageInYears →
          (st.poles.get ⟨m, hm⟩).isHarvested = false →
          ((Schematic.harvestMaturePoles st g).poles.get ⟨m, hm2⟩).isHarvested = false →
          (st.poles.get ⟨m, hm⟩).ageInYears ≤ (st.poles.get ⟨j, hj⟩).ageInYears)) :=
  Schematic.harvest_spec st g hg

/-- Witness for C5 on the empty clump state at progress 0.5. -/
theorem harvest_acts_on_eligible_set_witness :
    (Schematic.harvestMaturePoles Schematic.st0 0.5).poles.length =
      Schematic.st0.poles.length ∧
    (Schematic.harvestMaturePoles Schematic.st0 0.5).harvestedPoles =
      Schematic.st0.harvestedPoles +
        ((⌈((Schematic.matureOf Schematic.st0.poles).length : ℝ) * 0.2⌉.toNat : ℕ) : ℤ) :=
  ⟨(harvest_acts_on_eligible_set Schematic.st0 0.5 (by norm_num)).1,
   (harvest_acts_on_eligible_set Schematic.st0 0.5 (by norm_num)).2.2.1⟩

namespace Schematic

/-- Relation between a clump state and any later state of the same clump: the
record list never shrinks, the harvested counter never decreases, the counter
matching the number of marked records is preserved, and a harvested flag is
never reset. -/
def StepOK (a b : ClumpState) : Prop :=
  a.poles.length ≤ b.poles.length ∧
  a.harvestedPoles ≤ b.harvestedPoles ∧
  (a.harvestedPoles = (countHarvested a.poles : ℤ) →
    b.harvestedPoles = (countHarvested b.poles : ℤ)) ∧
  ∀ j (hj : j < a.poles.length) (hj2 : j < b.poles.length),
    (a.poles.get ⟨j, hj⟩).isHarvested = true → (b.poles.get ⟨j, hj2⟩).isHarvested = true

lemma stepOK_of_eq {a b : ClumpState} (hp : a.poles = b.poles)
    (hh : a.harvestedPoles = b.harvestedPoles) : StepOK a b := by
  refine ⟨by rw [hp], by rw [hh], by rw [hp, hh]; exact id, ?_⟩
  intro j hj hj2 hf
  have := List.get_of_eq hp ⟨j, hj⟩
  rw [← this] at *
  exact hf

lemma stepOK_trans {a b c : ClumpState} (h1 : StepOK a b) (h2 : StepOK b c) : StepOK a c := by
  refine ⟨le_trans h1.1 h2.1, le_trans h1.2.1 h2.2.1,
    fun h => h2.2.2.1 (h1.2.2.1 h), ?_⟩
  intro j hj hj2 hf
  have hjb : j < b.poles.length := lt_of_lt_of_le hj h1.1
  exact h2.2.2.2 j hjb hj2 (h1.2.2.2 j hj hjb hf)

lemma addLoop_new_flags (s : RandStream) :
    ∀ count existing (acc : List Pole) attempts k,
      (∀ p ∈ acc, p.isHarvested = false) →
      ∀ p ∈ (addLoop s count existing acc attempts k).1, p.isHarvested = false := by
  intro count
  induction count with
  | zero => intro existing acc attempts k hacc; simpa [addLoop] using hacc
  | succ n ih =>
      intro existing acc attempts k hacc
      simp only [addLoop]
      rcases hres : (placeLoop s existing (100 - attempts) k).1 with _ | c
      · simp only [hres]
        exact ih _ _ _ _ hacc
      · simp only [hres]
        apply ih
        intro p hp
        rcases List.mem_append.mp hp with hin | hin
        · exact hacc p hin
        · rcases List.mem_singleton.mp hin with rfl
          rfl

lemma addNewPoles_new_flags (st : ClumpState) (s : RandStream) (count k : ℕ) :
    ∀ p ∈ (addLoop s count (existingFromPoles st.poles) [] 0 k).1, p.isHarvested = false :=
  addLoop_new_flags s count _ [] 0 k (by intro p hp; exact absurd hp (List.not_mem_nil p))

lemma addNewPoles_step (st : ClumpState) (s : RandStream) (count k : ℕ) :
    StepOK st (addNewPoles st s count k).1 := by
  have hflags := addNewPoles_new_flags st s count k
  have hpoles : (addNewPoles st s count k).1.poles =
      st.poles ++ (addLoop s count (existingFromPoles st.poles) [] 0 k).1 := rfl
  refine ⟨?_, ?_, ?_, ?_⟩
  · rw [hpoles, List.length_append]
    omega
  · exact le_refl _
  · intro h
    have hcnt : countHarvested (addNewPoles st s count k).1.poles = countHarvested st.poles := by
      rw [hpoles]
      simp only [countHarvested, List.countP_append]
      have hz : List.countP (fun p => p.isHarvested)
          (addLoop s count (existingFromPoles st.poles) [] 0 k).1 = 0 := by
        rw [List.countP_eq_zero]
        intro p hp
        simp [hflags p hp]
      omega
    rw [hcnt]
    exact h
  · intro j hj hj2 hf
    have hget := List.get_of_eq hpoles ⟨j, hj2⟩
    rw [hget, List.get_append j hj]
    exact hf

lemma harvest_step (st : ClumpState) (g : ℝ) : StepOK st (harvestMaturePoles st g) := by
  by_cases hg : g < 0.3
  · have hres : harvestMaturePoles st g = st := by
      unfold harvestMaturePoles
      rw [if_pos hg]
    rw [hres]
    exact stepOK_of_eq rfl rfl
  · have hs := harvest_spec st g (not_lt.mp hg)
    refine ⟨le_of_eq hs.1.symm, ?_, ?_, ?_⟩
    · rw [hs.2.2.1]
      have : (0 : ℤ) ≤ ((⌈((matureOf st.poles).length : ℝ) * 0.2⌉.toNat : ℕ) : ℤ) := by
        positivity
      omega
    · intro h
      rw [hs.2.2.1, hs.2.2.2.1, h]
      push_cast
      ring
    · intro j hj hj2 hf
      rcases hs.2.2.2.2 j hj hj2 with heq | hmark
      · rw [heq]
        exact hf
      · rw [hmark.1]

lemma updatePoles_flag_get (g th : ℝ) (s : RandStream) (l : List Pole) (k j : ℕ)
    (hj : j < l.length) (hj2 : j < ((updatePoles g th s l k).1).length) :
    (((updatePoles g th s l k).1).get ⟨j, hj2⟩).isHarvested =
      (l.get ⟨j, hj⟩).isHarvested := by
  have hm := map_eq_get_proj geomFlag ((updatePoles g th s l k).1) l
    (updatePoles_proj g th s l k) j hj2 hj
  simpa [geomFlag] using congrArg (fun t => t.2.2.2.2) hm

lemma updatePoles_step (st2 : ClumpState) (g th : ℝ) (s : RandStream) (k : ℕ) :
    StepOK st2 { st2 with poles := (updatePoles g th s st2.poles k).1 } := by
  refine ⟨le_of_eq (updatePoles_length g th s st2.poles k).symm, le_refl _, ?_, ?_⟩
  · intro h
    have := updatePoles_countHarvested g th s st2.poles k
    simp only [countHarvested] at *
    rw [this]
    exact h
  · intro j hj hj2 hf
    have := updatePoles_flag_get g th s st2.poles k j hj hj2
    rw [this]
    exact hf

lemma update_step (st : ClumpState) (s : RandStream) (g : ℝ) (k : ℕ) :
    StepOK st (update st s g k).1 := by
  simp only [update]
  split <;> split <;>
    first
      | (refine stepOK_trans ?_ (updatePoles_step _ _ _ s _)
         refine stepOK_trans ?_ (harvest_step _ _)
         refine stepOK_trans ?_ (addNewPoles_step _ s _ _)
         exact stepOK_of_eq rfl rfl)
      | (refine stepOK_trans ?_ (updatePoles_step _ _ _ s _)
         refine stepOK_trans ?_ (harvest_step _ _)
         exact stepOK_of_eq rfl rfl)
      | (refine stepOK_trans ?_ (updatePoles_step _ _ _ s _)
         refine stepOK_trans ?_ (addNewPoles_step _ s _ _)
         exact stepOK_of_eq rfl rfl)
      | (refine stepOK_trans ?_ (updatePoles_step _ _ _ s _)
         exact stepOK_of_eq rfl rfl)

lemma initClump_inv (s : RandStream) (k : ℕ) :
    (initClump s k).1.harvestedPoles = (countHarvested (initClump s k).1.poles : ℤ) := by
  have hflags := addNewPoles_new_flags ⟨[], 0, 0, 0, 0.5⟩ s 5 k
  have hpoles : (initClump s k).1.poles =
      (addLoop s 5 (existingFromPoles ([] : List Pole)) [] 0 k).1 := by
    unfold initClump addNewPoles
    simp
  have hz : countHarvested (initClump s k).1.poles = 0 := by
    rw [hpoles, countHarvested, List.countP_eq_zero]
    intro p hp
    simp [hflags p hp]
  rw [hz]
  rfl

lemma runUpdates_stepOK (seq : List (RandStream × ℝ × ℕ)) :
    ∀ st : ClumpState, StepOK st (runUpdates st seq) ∧
      (st.harvestedPoles = (countHarvested st.poles : ℤ) →
        (runUpdates st seq).harvestedPoles =
          (countHarvested (runUpdates st seq).poles : ℤ)) := by
  induction seq with
  | nil => intro st; exact ⟨stepOK_of_eq rfl rfl, id⟩
  | cons a rest ih =>
      intro st
      have h1 := update_step st a.1 a.2.1 a.2.2
      have h2 := ih (update st a.1 a.2.1 a.2.2).1
      refine ⟨stepOK_trans h1 h2.1, fun h => h2.2 (h1.2.2.1 h)⟩

end Schematic

/-- C6: harvesting is irreversible and monotonic: for every state and update
invocation, the harvested counter does not decrease and a set harvested flag
stays set; and along every run (constructor followed by any sequence of
updates), the harvested counter of the resulting state never exceeds the
number of stalk records ever created. -/
theorem harvest_irreversible_monotone (s0 : RandStream) (k0 : ℕ)
    (seq : List (RandStream × ℝ × ℕ)) :
    (∀ st (s : RandStream) (g : ℝ) (k : ℕ),
      st.harvestedPoles ≤ (Schematic.update st s g k).1.harvestedPoles) ∧
    (∀ st (s : RandStream) (g : ℝ) (k : ℕ) j (hj : j < st.poles.length),
      (st.poles.get ⟨j, hj⟩).isHarvested = true →
      ∃ hj2 : j < (Schematic.update st s g k).1.poles.length,
        ((Schematic.update st s g k).1.poles.get ⟨j, hj2⟩).isHarvested = true) ∧
    (Schematic.runUpdates (Schematic.initClump s0 k0).1 seq).harvestedPoles ≤
      (((Schematic.runUpdates (Schematic.initClump s0 k0).1 seq).poles.length : ℕ) : ℤ) := by
  refine ⟨?_, ?_, ?_⟩
  · intro st s g k
    exact (Schematic.update_step st s g k).2.1
  · intro st s g k j hj hf
    have hstep := Schematic.update_step st s g k
    have hj2 : j < (Schematic.update st s g k).1.poles.length := lt_of_lt_of_le hj hstep.1
    exact ⟨hj2, hstep.2.2.2 j hj hj2 hf⟩
  · have hrun := Schematic.runUpdates_stepOK seq (Schematic.initClump s0 k0).1
    have hinv := hrun.2 (Schematic.initClump_inv s0 k0)
    rw [hinv]
    have hle := List.countP_le_length
      (p := fun p => p.isHarvested)
      (l := (Schematic.runUpdates (Schematic.initClump s0 k0).1 seq).poles)
    exact_mod_cast hle

/-- Witness for C6: counter monotone on the one-harvested-stalk state, flag
preserved at index 0, and the end-state bound after the empty run under the
constant 0.5 stream. -/
theorem harvest_irreversible_monotone_witness :
    Schematic.stHarvested.harvestedPoles ≤
      (Schematic.update Schematic.stHarvested halfStream 0.6 0).1.harvestedPoles ∧
    (∃ hj2 : 0 < (Schematic.update Schematic.stHarvested halfStream 0.6 0).1.poles.length,
      ((Schematic.update Schematic.stHarvested halfStream 0.6 0).1.poles.get
        ⟨0, hj2⟩).isHarvested = true) ∧
    (Schematic.runUpdates (Schematic.initClump halfStream 0).1 []).harvestedPoles ≤
      (((Schematic.runUpdates (Schematic.initClump halfStream 0).1 []).poles.length : ℕ) : ℤ) :=
  ⟨(harvest_irreversible_monotone halfStream 0 []).1 Schematic.stHarvested halfStream 0.6 0,
   (harvest_irreversible_monotone halfStream 0 []).2.1 Schematic.stHarvested halfStream 0.6 0 0
     (by simp [Schematic.stHarvested]) rfl,
   (harvest_irreversible_monotone halfStream 0 []).2.2⟩

namespace Schematic

lemma placeLoop_some (s : RandStream) (existing : List PosEntry) :
    ∀ fuel k c, (placeLoop s existing fuel k).1 = some c →
      validCandidate c existing = true ∧ ∃ j, c = drawCandidate s j := by
  intro fuel
  induction fuel with
  | zero => intro k c h; exact absurd h (by simp [placeLoop])
  | succ n ih =>
      intro k c h
      simp only [placeLoop] at h
      split at h
      · rename_i hcond
        simp only [Option.some.injEq] at h
        subst h
        exact ⟨hcond, k, rfl⟩
      · exact ih (k + 4) c h

lemma drawCandidate_thickness_nonneg (s : RandStream) (hs : StreamRange s) (k : ℕ) :
    0 ≤ (drawCandidate s k).thickness := by
  have h3 := (hs (k + 3)).1
  simp only [drawCandidate]
  split <;> split <;> nlinarith

lemma acceptPole_geom (s : RandStream) (hs : StreamRange s) (k : ℕ) (c : Candidate)
    (ht : 0 ≤ c.thickness) :
    PoleWF (acceptPole s k c).1 ∧ (acceptPole s k c).1.isHarvested = false ∧
    (acceptPole s k c).1.x = c.x ∧ (acceptPole s k c).1.z = c.z ∧
    (acceptPole s k c).1.thickness = c.thickness := by
  have h2 := (hs (k + 2)).1
  refine ⟨⟨ht, ?_⟩, rfl, rfl, rfl, rfl⟩
  simp only [acceptPole]
  nlinarith

lemma valid_sep (c : Candidate) (existing : List PosEntry)
    (hv : validCandidate c existing = true) (e : PosEntry) (he : e ∈ existing) :
    c.thickness + e.radius ≤
      Real.sqrt ((c.x - e.x) * (c.x - e.x) + (c.z - e.z) * (c.z - e.z)) := by
  unfold validCandidate at hv
  rw [List.all_eq_true] at hv
  have h := hv e he
  simp only [overlapsB, Bool.not_eq_eq_eq_not, Bool.not_true, decide_eq_false_iff_not,
    not_lt] at h
  exact h

lemma polesSep_append_single (l : List Pole) (q : Pole) (hl : PolesSep l)
    (hq : ∀ p ∈ l, p.isHarvested = false → q.isHarvested = false → sepDist p q) :
    PolesSep (l ++ [q]) := by
  intro i j hi hj hij hlivei hlivej
  by_cases hjl : j < l.length
  · have hil : i < l.length := lt_trans hij hjl
    have e1 : (l ++ [q]).get ⟨i, hi⟩ = l.get ⟨i, hil⟩ := List.get_append i hil
    have e2 : (l ++ [q]).get ⟨j, hj⟩ = l.get ⟨j, hjl⟩ := List.get_append j hjl
    rw [e1] at hlivei
    rw [e2] at hlivej
    rw [e1, e2]
    exact hl i j hil hjl hij hlivei hlivej
  · have hlenapp : (l ++ [q]).length = l.length + 1 := by simp
    have hjq : j = l.length := by omega
    have e2 : (l ++ [q]).get ⟨j, hj⟩ = q := by
      subst hjq
      rw [List.get_eq_getElem]
      simp
    have hil : i < l.length := hjq ▸ hij
    have e1 : (l ++ [q]).get ⟨i, hi⟩ = l.get ⟨i, hil⟩ := List.get_append i hil
    rw [e1] at hlivei
    rw [e2] at hlivej
    rw [e1, e2]
    exact hq _ (List.get_mem l i hil) hlivei hlivej

lemma polesSep_preserve (l1 l2 : List Pole) (hlen : l2.length = l1.length)
    (hf : ∀ j (hj1 : j < l1.length) (hj2 : j < l2.length),
      (l2.get ⟨j, hj2⟩).x = (l1.get ⟨j, hj1⟩).x ∧
      (l2.get ⟨j, hj2⟩).z = (l1.get ⟨j, hj1⟩).z ∧
      (l2.get ⟨j, hj2⟩).thickness = (l1.get ⟨j, hj1⟩).thickness ∧
      ((l2.get ⟨j, hj2⟩).isHarvested = false → (l1.get ⟨j, hj1⟩).isHarvested = false))
    (hs : PolesSep l1) : PolesSep l2 := by
  intro i j hi hj hij hlivei hlivej
  have hi1 : i < l1.length := by omega
  have hj1 : j < l1.length := by omega
  obtain ⟨hx1, hz1, ht1, hfl1⟩ := hf i hi1 hi
  obtain ⟨hx2, hz2, ht2, hfl2⟩ := hf j hj1 hj
  have hbase := hs i j hi1 hj1 hij (hfl1 hlivei) (hfl2 hlivej)
  unfold sepDist at hbase ⊢
  rw [hx1, hz1, ht1, hx2, hz2, ht2]
  exact hbase

lemma addLoop_sep (s : RandStream) (hs : StreamRange s) (orig : List Pole) :
    ∀ (count : ℕ) (existing : List PosEntry) (acc : List Pole) (attempts k : ℕ),
      (∀ p ∈ orig ++ acc, PoleWF p) →
      PolesSep (orig ++ acc) →
      Covers existing (orig ++ acc) →
      (∀ p ∈ orig ++ (addLoop s count existing acc attempts k).1, PoleWF p) ∧
      PolesSep (orig ++ (addLoop s count existing acc attempts k).1) := by
  intro count
  induction count with
  | zero =>
      intro existing acc attempts k hwf hsep hcov
      exact ⟨by simpa [addLoop] using hwf, by simpa [addLoop] using hsep⟩
  | succ n ih =>
      intro existing acc attempts k hwf hsep hcov
      simp only [addLoop]
      rcases hres : (placeLoop s existing (100 - attempts) k).1 with _ | c
      · simp only [hres]
        exact ih existing acc _ _ hwf hsep hcov
      · simp only [hres]
        obtain ⟨hvalid, j2, hcdraw⟩ := placeLoop_some s existing _ _ _ hres
        have htnn : 0 ≤ c.thickness := by
          rw [hcdraw]
          exact drawCandidate_thickness_nonneg s hs j2
        obtain ⟨hwfq, hflagq, hxq, hzq, htq⟩ :=
          acceptPole_geom s hs (placeLoop s existing (100 - attempts) k).2.2 c htnn
        apply ih
        · intro p hp
          rw [← List.append_assoc] at hp
          rcases List.mem_append.mp hp with hin | hin
          · exact hwf p hin
          · rcases List.mem_singleton.mp hin with rfl
            exact hwfq
        · rw [← List.append_assoc]
          apply polesSep_append_single _ _ hsep
          intro p hp hlivep hliveq
          obtain ⟨e, he, hex, hez, her⟩ := hcov p hp hlivep
          have hvs := valid_sep c existing hvalid e he
          unfold sepDist
          rw [hxq, hzq, htq, ← hex, ← hez]
          linarith
        · intro p hp hlivep
          rw [← List.append_assoc] at hp
          rcases List.mem_append.mp hp with hin | hin
          · obtain ⟨e, he, hfacts⟩ := hcov p hin hlivep
            exact ⟨e, List.mem_append_left _ he, hfacts⟩
          · rcases List.mem_singleton.mp hin with rfl
            refine ⟨⟨c.x, c.z, c.thickness * 1.2⟩,
              List.mem_append_right _ (List.mem_singleton_self _), ?_, ?_, ?_⟩
            · exact hxq.symm
            · exact hzq.symm
            · rw [htq]
              ring_nf
              exact le_refl _

lemma addNewPoles_sepWF (st : ClumpState) (s : RandStream) (hs : StreamRange s) (count k : ℕ)
    (hwf : ∀ p ∈ st.poles, PoleWF p) (hsep : PolesSep st.poles) :
    (∀ p ∈ (addNewPoles st s count k).1.poles, PoleWF p) ∧
      PolesSep (addNewPoles st s count k).1.poles := by
  have hcov : Covers (existingFromPoles st.poles) (st.poles ++ []) := by
    intro p hp hlive
    rw [List.append_nil] at hp
    refine ⟨⟨p.x, p.z, p.bottomRadius * 1.2⟩, ?_, rfl, rfl, ?_⟩
    · unfold existingFromPoles
      rw [List.mem_map]
      refine ⟨p, List.mem_filter.mpr ⟨hp, by simp [hlive]⟩, rfl⟩
    · have h1 := (hwf p hp).1
      have h2 := (hwf p hp).2
      nlinarith
  have h := addLoop_sep s hs st.poles count (existingFromPoles st.poles) [] 0 k
    (by rw [List.append_nil]; exact hwf) (by rw [List.append_nil]; exact hsep) hcov
  exact h

lemma updatePoles_sepWF (g2 th : ℝ) (s : RandStream) (l : List Pole) (k : ℕ)
    (hwf : ∀ p ∈ l, PoleWF p) (hsep : PolesSep l) :
    (∀ p ∈ (updatePoles g2 th s l k).1, PoleWF p) ∧ PolesSep (updatePoles g2 th s l k).1 := by
  constructor
  · intro p hp
    rw [List.mem_iff_get] at hp
    obtain ⟨⟨j, hj2⟩, hget⟩ := hp
    have hj : j < l.length := by
      rw [← updatePoles_length g2 th s l k]
      exact hj2
    have hm := map_eq_get_proj geomFlag ((updatePoles g2 th s l k).1) l
      (updatePoles_proj g2 th s l k) j hj2 hj
    have hth := congrArg (fun t => t.2.2.1) hm
    have hbr := congrArg (fun t => t.2.2.2.1) hm
    simp only [geomFlag] at hth hbr
    have hwl := hwf (l.get ⟨j, hj⟩) (List.get_mem l j hj)
    rw [← hget]
    constructor
    · rw [hth]
      exact hwl.1
    · rw [hth, hbr]
      exact hwl.2
  · apply polesSep_preserve l _ (updatePoles_length g2 th s l k) ?_ hsep
    intro j hj1 hj2
    have hm := map_eq_get_proj geomFlag ((updatePoles g2 th s l k).1) l
      (updatePoles_proj g2 th s l k) j hj2 hj1
    have hx := congrArg (fun t => t.1) hm
    have hz := congrArg (fun t => t.2.1) hm
    have hth := congrArg (fun t => t.2.2.1) hm
    have hfl := congrArg (fun t => t.2.2.2.2) hm
    simp only [geomFlag] at hx hz hth hfl
    exact ⟨hx, hz, hth, fun h => by rw [← hfl]; exact h⟩

lemma harvest_sepWF (st : ClumpState) (g : ℝ)
    (hwf : ∀ p ∈ st.poles, PoleWF p) (hsep : PolesSep st.poles) :
    (∀ p ∈ (harvestMaturePoles st g).poles, PoleWF p) ∧
      PolesSep (harvestMaturePoles st g).poles := by
  by_cases hg : g < 0.3
  · have hres : harvestMaturePoles st g = st := by
      unfold harvestMaturePoles
      rw [if_pos hg]
    rw [hres]
    exact ⟨hwf, hsep⟩
  · have hs := harvest_spec st g (not_lt.mp hg)
    constructor
    · intro p hp
      rw [List.mem_iff_get] at hp
      obtain ⟨⟨j, hj2⟩, hget⟩ := hp
      have hj : j < st.poles.length := by
        rw [← hs.1]
        exact hj2
      rcases hs.2.2.2.2 j hj hj2 with heq | hmark
      · rw [← hget, heq]
        exact hwf _ (List.get_mem _ _ _)
      · rw [← hget, hmark.1]
        have hwl := hwf _ (List.get_mem st.poles j hj)
        exact ⟨hwl.1, hwl.2⟩
    · apply polesSep_preserve st.poles _ hs.1 ?_ hsep
      intro j hj1 hj2
      rcases hs.2.2.2.2 j hj1 hj2 with heq | hmark
      · rw [heq]
        exact ⟨rfl, rfl, rfl, fun h => h⟩
      · rw [hmark.1]
        refine ⟨rfl, rfl, rfl, ?_⟩
        intro hfalse
        simp at hfalse

lemma update_sepWF (st : ClumpState) (s : RandStream) (hs : StreamRange s) (g : ℝ) (k : ℕ)
    (hwf : ∀ p ∈ st.poles, PoleWF p) (hsep : PolesSep st.poles) :
    (∀ p ∈ (update st s g k).1.poles, PoleWF p) ∧ PolesSep (update st s g k).1.poles := by
  have h1 := addNewPoles_sepWF ({ poles := st.poles,
                                  currentPoles := st.currentPoles,
                                  harvestedPoles := st.harvestedPoles,
                                  growthProgress := max 0 (min 1 g),
                                  targetHeight := calculateHeight (max 0 (min 1 g)) } :
      ClumpState) s hs
    (calculatePoleCount (max 0 (min 1 g)) - st.currentPoles).toNat k hwf hsep
  have h2 := harvest_sepWF _ (max 0 (min 1 g)) h1.1 h1.2
  have h3 := harvest_sepWF ({ poles := st.poles,
                              currentPoles := st.currentPoles,
                              harvestedPoles := st.harvestedPoles,
                              growthProgress := max 0 (min 1 g),
                              targetHeight := calculateHeight (max 0 (min 1 g)) } :
      ClumpState) (max 0 (min 1 g))
    hwf hsep
  simp only [update]
  split <;> split <;> refine updatePoles_sepWF _ _ s _ _ ?_ ?_
  · exact h2.1
  · exact h2.2
  · exact h1.1
  · exact h1.2
  · exact h3.1
  · exact h3.2
  · exact hwf
  · exact hsep

lemma initClump_sepWF (s : RandStream) (hs : StreamRange s) (k : ℕ) :
    (∀ p ∈ (initClump s k).1.poles, PoleWF p) ∧ PolesSep (initClump s k).1.poles := by
  apply addNewPoles_sepWF ⟨[], 0, 0, 0, 0.5⟩ s hs 5 k
  · intro p hp
    exact absurd hp (List.not_mem_nil p)
  · intro i j hi hj
    exact absurd hi (by simp)

lemma runUpdates_sepWF (seq : List (RandStream × ℝ × ℕ)) (hseq : ∀ a ∈ seq, StreamRange a.1) :
    ∀ st : ClumpState, (∀ p ∈ st.poles, PoleWF p) → PolesSep st.poles →
      (∀ p ∈ (runUpdates st seq).poles, PoleWF p) ∧ PolesSep (runUpdates st seq).poles := by
  induction seq with
  | nil => intro st hwf hsep; exact ⟨hwf, hsep⟩
  | cons a rest ih =>
      intro st hwf hsep
      have hstep := update_sepWF st a.1 (hseq a (List.mem_cons_self a rest)) a.2.1 a.2.2 hwf hsep
      exact ih (fun b hb => hseq b (List.mem_cons_of_mem a hb)) _ hstep.1 hstep.2

end Schematic

/-- C4: non-overlap invariant: after the constructor and any sequence of
update invocations, all driven by ambient streams with draws in [0,1), every
pair of live (non-harvested) stalks of the clump, taken in creation order,
has center distance at least the later stalk thickness plus 1.2 times the
earlier stalk thickness — the two thickness-derived exclusion radii used by
the circle-circle test of the rejection sampler. -/
theorem stalk_non_overlap_invariant (s0 : RandStream) (k0 : ℕ) (hs0 : StreamRange s0)
    (seq : List (RandStream × ℝ × ℕ)) (hseq : ∀ a ∈ seq, StreamRange a.1) :
    Schematic.PolesSep
      (Schematic.runUpdates (Schematic.initClump s0 k0).1 seq).poles := by
  have hinit := Schematic.initClump_sepWF s0 hs0 k0
  exact (Schematic.runUpdates_sepWF seq hseq _ hinit.1 hinit.2).2

/-- Witness for C4: the constant 0.5 ambient stream and the empty update
sequence. -/
theorem stalk_non_overlap_invariant_witness :
    Schematic.PolesSep
      (Schematic.runUpdates (Schematic.initClump halfStream 0).1 []).poles :=
  stalk_non_overlap_invariant halfStream 0
    (fun n => by constructor <;> norm_num [halfStream]) []
    (fun a ha => absurd ha (List.not_mem_nil a))

lemma round_nonneg_of_nonneg {x : ℝ} (hx : 0 ≤ x) : (0 : ℤ) ≤ round x := by
  rw [round_eq]
  have : ((0 : ℤ) : ℝ) ≤ x + 1 / 2 := by
    push_cast
    linarith
  exact Int.le_floor.mpr this

/-- C7 amended: the schematic carbon derivation returns 0 on the all-zero
input, is non-negative on all non-negative inputs, and the carbon returned by
update is clamped at 0; the card economics derivation returns 0 carbon and
harvest income for a zero plot area; but for a negative plot area it does not
degrade to 0: it returns strictly negative income (no clamp exists in that
code path). -/
theorem carbon_degrades_to_zero_amended :
    Schematic.calculateCarbon 0 0 = 0 ∧
    (∀ (h : ℝ) (pc : ℤ), 0 ≤ h → 0 ≤ pc → 0 ≤ Schematic.calculateCarbon h pc) ∧
    (∀ st (s : RandStream) (g : ℝ) (k : ℕ), 0 ≤ (Schematic.update st s g k).2.1.carbon) ∧
    (∀ year : ℤ, (Cards.economics 0 year).carbonIncome = 0 ∧
      (Cards.economics 0 year).harvestIncome = 0 ∧
      (Cards.economics 0 year).totalIncome = 0) ∧
    (Cards.economics (-1) 2031).carbonIncome < 0 := by
  refine ⟨?_, ?_, ?_, ?_, econ_neg_area_carbon⟩
  · norm_num [Schematic.calculateCarbon]
  · intro h pc hh hpc
    unfold Schematic.calculateCarbon
    have hinner : 0 ≤ h / 27 * ((pc : ℝ) / 90) * 87.5 * 10 := by
      have hpc2 : (0 : ℝ) ≤ (pc : ℝ) := by exact_mod_cast hpc
      positivity
    have hr := round_nonneg_of_nonneg hinner
    have hr2 : (0 : ℝ) ≤ ((round (h / 27 * ((pc : ℝ) / 90) * 87.5 * 10) : ℤ) : ℝ) := by
      exact_mod_cast hr
    linarith
  · intro st s g k
    exact le_max_left 0 _
  · intro year
    refine ⟨?_, ?_, ?_⟩ <;>
      norm_num [Cards.economics, Cards.carbonRatePerHa, Cards.carbonPricePerTon,
        Cards.clumpsPerHa, Cards.harvestablePolesPerClumpPerYear, Cards.polePrice]

/-- Witness for C7 at height 1 and pole count 1. -/
theorem carbon_degrades_to_zero_amended_witness :
    0 ≤ Schematic.calculateCarbon 1 1 ∧
    Schematic.calculateCarbon 0 0 = 0 :=
  ⟨carbon_degrades_to_zero_amended.2.1 1 1 (by norm_num) (by norm_num),
   carbon_degrades_to_zero_amended.1⟩

end TerraTwin
